import Mathlib

/-! Subscription service: embedding and verified properties.

A shallow embedding of the subscription REST service (controller, service and
repository layers over one table of subscription rows), together with the
library behaviour those layers rely on: date parsing for the layout
"01-2006", request binding, and the ORM operations on the table.

Conventions.
* Go's `int` is 64 bits wide. Its values are modelled by `Int`; the two places
  at which a number is converted into an `int`, the decoding of `price` from a
  JSON body and the scan of the total of a cost query, fail on a number outside
  the 64-bit range, as the decoder and the scan do.
* A Go string is modelled by `String` (read through its character list: every
  test made on it compares a single element with an ASCII character, which no
  element of a multi-byte character can pass).
* `Time` is an instant on the UTC time line, counted in microseconds from the
  Unix epoch, the resolution of the timestamp columns of the store.
* `UUID` is the 128-bit identifier read as a number; `uuid.Nil` is zero.
* The audit columns `created_at` and `updated_at` are written by the ORM and
  read by no operation of the repository; they are not modelled.
-/

namespace Subs

/-! ## Time values and the parse of a month-year string -/

/-- Instant on the UTC time line, in microseconds from the Unix epoch. -/
abbrev Time := Int

/-- Errors that the layers hand upward. -/
inductive Error where
  /-- Failure of `time.Parse`: the value does not match the layout. -/
  | errBad
  /-- Failure of `time.Parse`: the named element is out of range. -/
  | outOfRange (what : String)
  /-- Failure of `time.Parse`: text is left after the layout is consumed. -/
  | extraText
  /-- Fields of a bound request fail validation: each failure is the name of
  the field and the tag it fails. -/
  | validation (failures : List (String × String))
  /-- No row matched (`gorm.ErrRecordNotFound`). -/
  | recordNotFound
  /-- Insert of a row whose primary key is already in the table. -/
  | duplicateKey
  /-- A number of a JSON body does not fit the `int` field it is decoded into. -/
  | unmarshalOutOfRange (field : String)
  /-- A column value does not fit the `int` it is scanned into. -/
  | scanOutOfRange
  deriving DecidableEq, Repr

deriving instance DecidableEq for Except

/-- `isDigit s i`: index `i` is inside `s` and holds an ASCII decimal digit. -/
def isDigit (s : List Char) (i : Nat) : Bool :=
  match s.get? i with
  | none => false
  | some c => decide ('0'.toNat ≤ c.toNat) && decide (c.toNat ≤ '9'.toNat)

/-- Value of the digit held at index `i` (`s[i] - '0'`). -/
def digitAt (s : List Char) (i : Nat) : Int :=
  match s.get? i with
  | none => 0
  | some c => (c.toNat : Int) - ('0'.toNat : Int)

/-- `getnum` of Go's time package: parses `s[0:1]` or `s[0:2]` (`fixed` forces
`s[0:2]`) as a decimal integer and returns it with the rest of the string. -/
def getnum (s : List Char) (fixed : Bool) : Except Error (Int × List Char) :=
  if !isDigit s 0 then .error .errBad
  else if !isDigit s 1 then
    if fixed then .error .errBad
    else .ok (digitAt s 0, s.drop 1)
  else .ok (digitAt s 0 * 10 + digitAt s 1, s.drop 2)

/-- `skip` of Go's time package for a literal free of spaces (the only literal
of the layout "01-2006" is the hyphen): `value` must start with `pfx`. -/
def skip : List Char → List Char → Except Error (List Char)
  | value, [] => .ok value
  | [], _ :: _ => .error .errBad
  | v :: value, p :: pfx => if v ≠ p then .error .errBad else skip value pfx

/-- `leadingInt` of Go's time package: consumes the leading digits of `s`,
accumulating them into `x`; fails once the value leaves the 63-bit range. -/
def leadingInt : Int → List Char → Except Error (Int × List Char)
  | x, [] => .ok (x, [])
  | x, c :: s =>
    if c.toNat < '0'.toNat ∨ c.toNat > '9'.toNat then .ok (x, c :: s)
    else if x > 2 ^ 63 / 10 then .error .errBad
    else
      let x1 := x * 10 + (c.toNat : Int) - ('0'.toNat : Int)
      if x1 > 2 ^ 63 then .error .errBad else leadingInt x1 s

/-- `atoi` of Go's time package: an optional sign, then digits up to the end. -/
def atoi (s : List Char) : Except Error Int :=
  let neg := decide (s.head? = some '-')
  let s1 := if s.head? = some '-' ∨ s.head? = some '+' then s.drop 1 else s
  match leadingInt 0 s1 with
  | .error _ => .error .errBad
  | .ok (q, rem) =>
    if rem.length > 0 then .error .errBad
    else .ok (if neg then -q else q)

/-- Leap years of the proleptic Gregorian calendar. -/
def isLeap (year : Int) : Bool :=
  decide (year % 4 = 0) && (decide (year % 100 ≠ 0) || decide (year % 400 = 0))

/-- Days of a non-leap year that lie before the first of `month` (1..12). -/
def daysBefore (month : Int) : Int :=
  if month = 1 then 0 else if month = 2 then 31 else if month = 3 then 59
  else if month = 4 then 90 else if month = 5 then 120 else if month = 6 then 151
  else if month = 7 then 181 else if month = 8 then 212 else if month = 9 then 243
  else if month = 10 then 273 else if month = 11 then 304 else if month = 12 then 334
  else 365

/-- Days from the Unix epoch (1 January 1970) to 1 January of `year`. -/
def daysSinceEpoch (year : Int) : Int :=
  365 * (year - 1) + (year - 1) / 4 - (year - 1) / 100 + (year - 1) / 400 - 719162

/-- Number of microseconds in a day. -/
def microsPerDay : Int := 86400 * 1000000

/-- `time.Date(year, month, day, 0, 0, 0, 0, time.UTC)` for a month in 1..12:
the instant at which that civil day starts in UTC. -/
def Date (year month day : Int) : Time :=
  let d := daysSinceEpoch year + daysBefore month
  let d := if isLeap year && decide (month ≥ 3) then d + 1 else d
  (d + (day - 1)) * microsPerDay

/-- `time.Parse("01-2006", value)`: the layout is a zero-padded month, the
literal hyphen and a four-digit year; the day defaults to 1, the clock to
00:00:00 and the location to UTC. -/
def Parse_01_2006 (value : List Char) : Except Error Time :=
  -- element "01": a month of exactly two digits
  match getnum value true with
  | .error e => .error e
  | .ok (month, value) =>
    if month ≤ 0 ∨ 12 < month then .error (.outOfRange "month")
    else
      -- literal "-"
      match skip value ['-'] with
      | .error e => .error e
      | .ok value =>
        -- element "2006": a year of exactly four digits
        if value.length < 4 ∨ !isDigit value 0 then .error .errBad
        else
          match atoi (value.take 4) with
          | .error e => .error e
          | .ok year =>
            -- end of layout: nothing may be left
            if (value.drop 4).length ≠ 0 then .error .extraText
            else .ok (Date year month 1)

/-- `parseMonthYear` of the service layer. -/
def parseMonthYear (monthYear : String) : Except Error Time :=
  Parse_01_2006 monthYear.data

/-! ### The format in the words of the specification -/

/-- Element `c` is an ASCII decimal digit. -/
def isDecimalDigit (c : Char) : Bool :=
  decide (48 ≤ c.toNat) && decide (c.toNat ≤ 57)

/-- Value of a decimal digit. -/
def digitValue (c : Char) : Int := (c.toNat : Int) - 48

/-- The format MM-YYYY as the specification words it: two decimal digits
forming a month 01..12, a hyphen, four decimal digits of a year, and nothing
before or after. Gives the pair (year, month) the string denotes. -/
def wellFormedMonthYear (s : String) : Option (Int × Int) :=
  match s.data with
  | [m1, m2, h, y1, y2, y3, y4] =>
    let month := digitValue m1 * 10 + digitValue m2
    let year := digitValue y1 * 1000 + digitValue y2 * 100 + digitValue y3 * 10 + digitValue y4
    if isDecimalDigit m1 && isDecimalDigit m2 && decide (h = '-')
        && isDecimalDigit y1 && isDecimalDigit y2 && isDecimalDigit y3 && isDecimalDigit y4
        && decide (1 ≤ month) && decide (month ≤ 12)
    then some (year, month) else none
  | _ => none

/-! ## Data model -/

/-- Smallest value of Go's `int` (64 bits). -/
def minInt : Int := -9223372036854775808

/-- Largest value of Go's `int` (64 bits). -/
def maxInt : Int := 9223372036854775807

/-- The number fits Go's `int`. -/
def fitsInt (n : Int) : Bool := decide (minInt ≤ n) && decide (n ≤ maxInt)

/-- Identifier of 128 bits (`uuid.UUID`), read as a number. -/
abbrev UUID := Nat

/-- The all-zero identifier, the zero value of `uuid.UUID`. -/
def uuid.Nil : UUID := 0

/-- The record `models.Subscription`, which is also the row of the table
`subscriptions`. `DeletedAt` is the soft-delete marker of the embedded
`gorm.Model` (column `deleted_at`, NULL while the row is live). -/
structure Subscription where
  ID : UUID
  ServiceName : String
  Price : Int
  UserID : UUID
  StartDate : Time
  EndDate : Option Time
  DeletedAt : Option Time
  deriving DecidableEq, Repr

/-- What the surroundings supply during one request: the reading of the clock
(`db.NowFunc()`) and the identifier that `uuid.New()` draws. -/
structure Env where
  now : Time
  newUUID : UUID
  deriving DecidableEq, Repr

/-- Hook `BeforeCreate` of the model: the identifier is assigned on creation. -/
def Subscription.BeforeCreate (subscription : Subscription) (env : Env) : Subscription :=
  { subscription with ID := env.newUUID }

/-- Content of the table `subscriptions`, in the order of insertion. -/
abbrev DB := List Subscription

/-! ## The store: three-valued conditions and the ORM operations -/

/-- Truth value of an SQL condition; `none` is UNKNOWN. -/
abbrev SQLBool := Option Bool

/-- SQL `AND`. -/
def sqlAnd : SQLBool → SQLBool → SQLBool
  | some false, _ => some false
  | _, some false => some false
  | some true, some true => some true
  | _, _ => none

/-- SQL `OR`. -/
def sqlOr : SQLBool → SQLBool → SQLBool
  | some true, _ => some true
  | _, some true => some true
  | some false, some false => some false
  | _, _ => none

/-- SQL `a <= b` on nullable timestamps: UNKNOWN as soon as one side is NULL. -/
def sqlLe : Option Time → Option Time → SQLBool
  | some a, some b => some (decide (a ≤ b))
  | _, _ => none

/-- SQL `a >= b` on nullable timestamps. -/
def sqlGe : Option Time → Option Time → SQLBool
  | some a, some b => some (decide (a ≥ b))
  | _, _ => none

/-- SQL `a = b` on nullable values. -/
def sqlEq {α : Type} [DecidableEq α] : Option α → Option α → SQLBool
  | some a, some b => some (decide (a = b))
  | _, _ => none

/-- SQL `a IS NULL`: never UNKNOWN. -/
def sqlIsNull {α : Type} (a : Option α) : SQLBool := some a.isNone

/-- A query under construction on the model `Subscription`: the table it
reads and the conditions chained so far with `Where`. -/
structure Query where
  table : DB
  conds : List (Subscription → SQLBool)

/-- `db.Model(&models.Subscription{})`. -/
def gorm.Model (db : DB) : Query := ⟨db, []⟩

/-- `query.Where(cond, args...)`: one more condition, joined by AND. -/
def Query.Where (q : Query) (cond : Subscription → SQLBool) : Query :=
  { q with conds := q.conds ++ [cond] }

/-- Condition that the ORM adds to every read and update of a model with a
soft-delete marker: `deleted_at IS NULL`. -/
def softDeleteClause (r : Subscription) : SQLBool := sqlIsNull r.DeletedAt

/-- The WHERE clause of a query: its conditions and the soft-delete clause,
joined by AND. -/
def Query.whereClause (q : Query) (r : Subscription) : SQLBool :=
  (q.conds ++ [softDeleteClause]).foldl (fun acc cond => sqlAnd acc (cond r)) (some true)

/-- Rows a query selects: those on which the WHERE clause is TRUE. -/
def Query.rows (q : Query) : List Subscription :=
  q.table.filter (fun r => q.whereClause r == some true)

/-- SQL `SUM(price)` over the selected rows: NULL when there is none. -/
def Query.sumPrice (q : Query) : Option Int :=
  match q.rows with
  | [] => none
  | r :: rs => some ((r :: rs).map Subscription.Price).sum

/-- `Scan(&totalCost)` of one numeric column into a Go `int`: the conversion
fails when the number is outside the range of `int`. -/
def scanInt (n : Int) : Except Error Int :=
  if fitsInt n then .ok n else .error .scanOutOfRange

/-- `query.Select("COALESCE(SUM(price), 0)").Row().Scan(&totalCost)`: the sum
is taken by the store without a bound, then scanned into the `int`. -/
def Query.SelectCoalesceSumPrice (q : Query) : Except Error Int :=
  scanInt (q.sumPrice.getD 0)

/-- INSERT of one row; the primary key `id` must not be in the table yet. -/
def gorm.insert (db : DB) (row : Subscription) : Except Error DB :=
  if db.any (fun r => decide (r.ID = row.ID)) then .error .duplicateKey
  else .ok (db ++ [row])

/-- `db.Create(value)`: runs the hook `BeforeCreate`, then inserts the row.
Gives the record as the hook left it, and the new table. -/
def gorm.Create (env : Env) (db : DB) (value : Subscription) :
    Except Error (Subscription × DB) :=
  let value := value.BeforeCreate env
  match gorm.insert db value with
  | .error e => .error e
  | .ok db1 => .ok (value, db1)

/-- `db.First(&dest, "id = ?", id)`: the first live row with that identifier,
or the error `ErrRecordNotFound`. -/
def gorm.First (db : DB) (id : UUID) : Except Error Subscription :=
  match db.filter (fun r => decide (r.ID = id) && r.DeletedAt.isNone) with
  | [] => .error .recordNotFound
  | r :: _ => .ok r

/-- `db.Find(&dest)`: all live rows. -/
def gorm.Find (db : DB) : Except Error (List Subscription) :=
  .ok (db.filter (fun r => r.DeletedAt.isNone))

/-- Effect on one row of the statement `UPDATE ... SET deleted_at = now WHERE
id = ? AND deleted_at IS NULL`. -/
def markDeleted (env : Env) (id : UUID) (r : Subscription) : Subscription :=
  if r.ID = id ∧ r.DeletedAt = none then { r with DeletedAt := some env.now } else r

/-- `db.Delete(&models.Subscription{}, "id = ?", id)` on a model with a
soft-delete marker: the rows are marked, not removed. A statement that matches
no row is no error. -/
def gorm.Delete (env : Env) (db : DB) (id : UUID) : Except Error DB :=
  .ok (db.map (markDeleted env id))

/-- `db.Save(value)`, in the words of the ORM: "Save is a combination function.
If save value does not contain primary key, it will execute Create, otherwise
it will execute Update (with all fields)". A record whose primary key is the
zero value is created, hooks included. Otherwise all columns of the live row
with that key are updated; when that statement touches no row, the record is
inserted with `ON CONFLICT (id) DO UPDATE` (hooks skipped), which overwrites a
row of that key when there is one. -/
def gorm.Save (env : Env) (db : DB) (value : Subscription) :
    Except Error (Subscription × DB) :=
  if value.ID = uuid.Nil then gorm.Create env db value
  else if db.any (fun r => decide (r.ID = value.ID) && r.DeletedAt.isNone) then
    .ok (value, db.map (fun r => if r.ID = value.ID ∧ r.DeletedAt = none then value else r))
  else if db.any (fun r => decide (r.ID = value.ID)) then
    .ok (value, db.map (fun r => if r.ID = value.ID then value else r))
  else .ok (value, db ++ [value])

/-! ## Repository layer -/

/-- `subscriptionRepository.Create`. -/
def subscriptionRepository.Create (env : Env) (db : DB) (subscription : Subscription) :
    Except Error (Subscription × DB) :=
  gorm.Create env db subscription

/-- `subscriptionRepository.GetByID`. -/
def subscriptionRepository.GetByID (db : DB) (id : UUID) : Except Error Subscription :=
  gorm.First db id

/-- `subscriptionRepository.Update`. -/
def subscriptionRepository.Update (env : Env) (db : DB) (subscription : Subscription) :
    Except Error (Subscription × DB) :=
  gorm.Save env db subscription

/-- `subscriptionRepository.Delete`. -/
def subscriptionRepository.Delete (env : Env) (db : DB) (id : UUID) : Except Error DB :=
  gorm.Delete env db id

/-- `subscriptionRepository.List`. -/
def subscriptionRepository.List (db : DB) : Except Error (List Subscription) :=
  gorm.Find db

/-- `subscriptionRepository.CalculateTotalCost`: the overlap condition, then
one condition for each filter that is supplied, then the coalesced sum. -/
def subscriptionRepository.CalculateTotalCost (db : DB) (userID : Option UUID)
    (serviceName : Option String) (startDate endDate : Time) : Except Error Int :=
  let query := (gorm.Model db).Where (fun r =>
    -- "start_date <= ? AND (end_date IS NULL OR end_date >= ?)", endDate, startDate
    sqlAnd (sqlLe (some r.StartDate) (some endDate))
      (sqlOr (sqlIsNull r.EndDate) (sqlGe r.EndDate (some startDate))))
  let query := match userID with
    | some u => query.Where (fun r => sqlEq (some r.UserID) (some u))
    | none => query
  let query := match serviceName with
    | some n => query.Where (fun r => sqlEq (some r.ServiceName) (some n))
    | none => query
  query.SelectCoalesceSumPrice

/-! ## Service layer -/

/-- `subscriptionService.CreateSubscription`. -/
def subscriptionService.CreateSubscription (env : Env) (db : DB) (subscription : Subscription) :
    Except Error (Subscription × DB) :=
  subscriptionRepository.Create env db subscription

/-- `subscriptionService.GetSubscription`. -/
def subscriptionService.GetSubscription (db : DB) (id : UUID) : Except Error Subscription :=
  subscriptionRepository.GetByID db id

/-- `subscriptionService.UpdateSubscription`. -/
def subscriptionService.UpdateSubscription (env : Env) (db : DB) (subscription : Subscription) :
    Except Error (Subscription × DB) :=
  subscriptionRepository.Update env db subscription

/-- `subscriptionService.DeleteSubscription`. -/
def subscriptionService.DeleteSubscription (env : Env) (db : DB) (id : UUID) : Except Error DB :=
  subscriptionRepository.Delete env db id

/-- `subscriptionService.ListSubscriptions`. -/
def subscriptionService.ListSubscriptions (db : DB) : Except Error (List Subscription) :=
  subscriptionRepository.List db

/-- `subscriptionService.CalculateTotalCost`: both month-year strings are
parsed before the repository is called. -/
def subscriptionService.CalculateTotalCost (db : DB) (userID : Option UUID)
    (serviceName : Option String) (startMonthYear endMonthYear : String) : Except Error Int :=
  match parseMonthYear startMonthYear with
  | .error err => .error err
  | .ok startDate =>
    match parseMonthYear endMonthYear with
    | .error err => .error err
    | .ok endDate => subscriptionRepository.CalculateTotalCost db userID serviceName startDate endDate

/-! ## Controller layer -/

/-- Body of a response. -/
inductive Payload where
  /-- No body (`ctx.Status`). -/
  | empty
  /-- The object with one member `error` holding a fixed message. -/
  | message (text : String)
  /-- The object with one member `error` holding the text of a binding error. -/
  | bindError (err : Error)
  /-- One record. -/
  | subscription (s : Subscription)
  /-- A sequence of records. -/
  | subscriptions (l : List Subscription)
  /-- The object with one member `total_cost`. -/
  | totalCost (n : Int)
  deriving DecidableEq, Repr

/-- Status code and body written by a handler. -/
structure Response where
  status : Nat
  body : Payload
  deriving DecidableEq, Repr

def StatusOK : Nat := 200
def StatusCreated : Nat := 201
def StatusNoContent : Nat := 204
def StatusBadRequest : Nat := 400
def StatusNotFound : Nat := 404
def StatusInternalServerError : Nat := 500

/-- Members of the JSON object sent to `POST /subscriptions`, each of the JSON
type its field expects (`price` an integer of any size); `none` is a member
that is absent (or null). -/
structure CreateSubscriptionJSON where
  service_name : Option String
  price : Option Int
  user_id : Option UUID
  start_date : Option String
  end_date : Option String
  deriving DecidableEq, Repr

/-- The struct `CreateSubscriptionRequest`. -/
structure CreateSubscriptionRequest where
  ServiceName : String
  Price : Int
  UserID : UUID
  StartDate : String
  EndDate : Option String
  deriving DecidableEq, Repr

/-- Decoding of the JSON object into the struct: a member that is absent
leaves the zero value of its field; a `price` outside the range of `int` makes
the decoding fail. -/
def CreateSubscriptionRequest.decode (j : CreateSubscriptionJSON) :
    Except Error CreateSubscriptionRequest :=
  if fitsInt (j.price.getD 0) then
    .ok { ServiceName := j.service_name.getD ""
          Price := j.price.getD 0
          UserID := j.user_id.getD uuid.Nil
          StartDate := j.start_date.getD ""
          EndDate := j.end_date }
  else .error (.unmarshalOutOfRange "price")

/-- Failures of the `binding` tags of `CreateSubscriptionRequest`, field by
field; the tags of one field are tried in order up to the first that fails.
The tag `required` fails on the zero value of the field, `min=0` on a number
below 0. -/
def CreateSubscriptionRequest.failures (req : CreateSubscriptionRequest) :
    List (String × String) :=
  -- ServiceName: binding:"required"
  (if req.ServiceName = "" then [("ServiceName", "required")] else [])
  -- Price: binding:"required,min=0"
  ++ (if req.Price = 0 then [("Price", "required")]
      else if req.Price < 0 then [("Price", "min")] else [])
  -- UserID: binding:"required"
  ++ (if req.UserID = uuid.Nil then [("UserID", "required")] else [])
  -- StartDate: binding:"required"
  ++ (if req.StartDate = "" then [("StartDate", "required")] else [])

/-- Validation of a bound `CreateSubscriptionRequest`: an error that lists
the failures when there is one. -/
def CreateSubscriptionRequest.validate (req : CreateSubscriptionRequest) : Except Error Unit :=
  match req.failures with
  | [] => .ok ()
  | f :: fs => .error (.validation (f :: fs))

/-- `ctx.ShouldBindJSON(&req)` for a `CreateSubscriptionRequest`: the body is
decoded, then the decoded struct is validated. -/
def ShouldBindJSON (j : CreateSubscriptionJSON) : Except Error CreateSubscriptionRequest :=
  match CreateSubscriptionRequest.decode j with
  | .error err => .error err
  | .ok req =>
    match req.validate with
    | .error err => .error err
    | .ok _ => .ok req

/-- Handler `CreateSubscription`. -/
def SubscriptionController.CreateSubscription (env : Env) (db : DB)
    (body : CreateSubscriptionJSON) : Response × DB :=
  match ShouldBindJSON body with
  | .error err => (⟨StatusBadRequest, .bindError err⟩, db)
  | .ok req =>
    match Parse_01_2006 req.StartDate.data with
    | .error _ => (⟨StatusBadRequest, .message "Invalid start date format. Use MM-YYYY"⟩, db)
    | .ok startDate =>
      let parsedEnd : Except Error (Option Time) :=
        match req.EndDate with
        | none => .ok none
        | some e =>
          match Parse_01_2006 e.data with
          | .error err => .error err
          | .ok parsedEndDate => .ok (some parsedEndDate)
      match parsedEnd with
      | .error _ => (⟨StatusBadRequest, .message "Invalid end date format. Use MM-YYYY"⟩, db)
      | .ok endDate =>
        let subscription : Subscription :=
          { ID := uuid.Nil
            ServiceName := req.ServiceName
            Price := req.Price
            UserID := req.UserID
            StartDate := startDate
            EndDate := endDate
            DeletedAt := none }
        match subscriptionService.CreateSubscription env db subscription with
        | .error _ => (⟨StatusInternalServerError, .message "Failed to create subscription"⟩, db)
        | .ok (subscription, db1) => (⟨StatusCreated, .subscription subscription⟩, db1)

/-- Handler `GetSubscription`. The path parameter is given as `uuid.Parse`
reads it: `none` when it is no identifier. -/
def SubscriptionController.GetSubscription (db : DB) (idParam : Option UUID) : Response :=
  match idParam with
  | none => ⟨StatusBadRequest, .message "Invalid subscription ID"⟩
  | some id =>
    match subscriptionService.GetSubscription db id with
    | .error _ => ⟨StatusNotFound, .message "Subscription not found"⟩
    | .ok subscription => ⟨StatusOK, .subscription subscription⟩

/-- Handler `UpdateSubscription`. The body is given as `ShouldBindJSON` reads
it into a `models.Subscription`, which carries no `binding` tag: `.error` when
the JSON does not decode (a price outside the range of `int` included), the
decoded record otherwise. -/
def SubscriptionController.UpdateSubscription (env : Env) (db : DB) (idParam : Option UUID)
    (body : Except Error Subscription) : Response × DB :=
  match idParam with
  | none => (⟨StatusBadRequest, .message "Invalid subscription ID"⟩, db)
  | some id =>
    match body with
    | .error err => (⟨StatusBadRequest, .bindError err⟩, db)
    | .ok subscription =>
      let subscription := { subscription with ID := id }
      match subscriptionService.UpdateSubscription env db subscription with
      | .error _ => (⟨StatusInternalServerError, .message "Failed to update subscription"⟩, db)
      | .ok (subscription, db1) => (⟨StatusOK, .subscription subscription⟩, db1)

/-- Handler `DeleteSubscription`. -/
def SubscriptionController.DeleteSubscription (env : Env) (db : DB) (idParam : Option UUID) :
    Response × DB :=
  match idParam with
  | none => (⟨StatusBadRequest, .message "Invalid subscription ID"⟩, db)
  | some id =>
    match subscriptionService.DeleteSubscription env db id with
    | .error _ => (⟨StatusInternalServerError, .message "Failed to delete subscription"⟩, db)
    | .ok db1 => (⟨StatusNoContent, .empty⟩, db1)

/-- Handler `ListSubscriptions`. -/
def SubscriptionController.ListSubscriptions (db : DB) : Response :=
  match subscriptionService.ListSubscriptions db with
  | .error _ => ⟨StatusInternalServerError, .message "Failed to list subscriptions"⟩
  | .ok subscriptions => ⟨StatusOK, .subscriptions subscriptions⟩

/-- Query parameters of `GET /cost` as sent; `none` is a parameter that is
absent. `user_id` is given as read into an identifier. -/
structure CalculateCostQuery where
  user_id : Option UUID
  service_name : Option String
  start_date : Option String
  end_date : Option String
  deriving DecidableEq, Repr

/-- The struct `CalculateCostRequest`. -/
structure CalculateCostRequest where
  UserID : Option UUID
  ServiceName : Option String
  StartDate : String
  EndDate : String
  deriving DecidableEq, Repr

/-- `ctx.ShouldBindQuery(&req)` for a `CalculateCostRequest`: both dates carry
`binding:"required"`, which fails on the empty string. -/
def ShouldBindQuery (q : CalculateCostQuery) : Except Error CalculateCostRequest :=
  let req : CalculateCostRequest :=
    { UserID := q.user_id
      ServiceName := q.service_name
      StartDate := q.start_date.getD ""
      EndDate := q.end_date.getD "" }
  let failures : List (String × String) :=
    (if req.StartDate = "" then [("StartDate", "required")] else [])
    ++ (if req.EndDate = "" then [("EndDate", "required")] else [])
  match failures with
  | [] => .ok req
  | f :: fs => .error (.validation (f :: fs))

/-- Handler `CalculateTotalCost`. -/
def SubscriptionController.CalculateTotalCost (db : DB) (query : CalculateCostQuery) : Response :=
  match ShouldBindQuery query with
  | .error err => ⟨StatusBadRequest, .bindError err⟩
  | .ok req =>
    match subscriptionService.CalculateTotalCost db req.UserID req.ServiceName
        req.StartDate req.EndDate with
    | .error _ => ⟨StatusInternalServerError, .message "Failed to calculate cost"⟩
    | .ok totalCost => ⟨StatusOK, .totalCost totalCost⟩

/-! ## Definitions in which the properties are stated -/

/-- Day number, counted from the Unix epoch, of the first of `month` in `year`. -/
def firstOfMonth (year month : Int) : Int :=
  (if isLeap year && decide (month ≥ 3) then daysSinceEpoch year + daysBefore month + 1
    else daysSinceEpoch year + daysBefore month)

/-- The rows the specification sums over: not soft-deleted, started on or
before `endDate`, without an end or ending on or after `startDate`, and equal
to each filter that is supplied. -/
def qualifies (userID : Option UUID) (serviceName : Option String) (startDate endDate : Time)
    (r : Subscription) : Bool :=
  r.DeletedAt.isNone
    && decide (r.StartDate ≤ endDate)
    && (match r.EndDate with
        | none => true
        | some e => decide (e ≥ startDate))
    && (match userID with
        | none => true
        | some u => decide (r.UserID = u))
    && (match serviceName with
        | none => true
        | some n => decide (r.ServiceName = n))

/-- The total the specification describes: the sum of `price` over the rows
that qualify. -/
def specTotalCost (db : DB) (userID : Option UUID) (serviceName : Option String)
    (startDate endDate : Time) : Int :=
  ((db.filter (qualifies userID serviceName startDate endDate)).map Subscription.Price).sum

/-- Bodies that are client errors: a required member is missing,
`service_name` is empty, `user_id` is the all-zero identifier, `price` is
negative or above the largest `int`, or `start_date` or a supplied `end_date`
is not well-formed. -/
def clientError (body : CreateSubscriptionJSON) : Prop :=
  body.service_name = none ∨ body.service_name = some ""
    ∨ body.price = none ∨ (∃ p, body.price = some p ∧ (p < 0 ∨ maxInt < p))
    ∨ body.user_id = none ∨ body.user_id = some uuid.Nil
    ∨ body.start_date = none
    ∨ (∃ s, body.start_date = some s ∧ wellFormedMonthYear s = none)
    ∨ (∃ e, body.end_date = some e ∧ wellFormedMonthYear e = none)

/-- What the handler `CreateSubscription` answers once the service has been
called with a record. -/
def createOutcome (db : DB) (result : Except Error (Subscription × DB)) : Response × DB :=
  match result with
  | .error _ => (⟨StatusInternalServerError, .message "Failed to create subscription"⟩, db)
  | .ok (subscription, db1) => (⟨StatusCreated, .subscription subscription⟩, db1)

/-! ## Sample data -/

/-- Identifier of a sample user. -/
def userU1 : UUID := 0x7d4448409dc04d1fb2c3a1e5f60718aa

/-- Identifier that `uuid.New()` draws in the samples. -/
def freshID : UUID := 0x3f2504e04f8941d39a0c0305e82c3301

/-- Surroundings of the samples. -/
def sampleEnv : Env := { now := 1767225600000000, newUUID := freshID }

/-- Body of a create request: Netflix at price 15 from 03-2024 to 05-2024. -/
def netflixBody : CreateSubscriptionJSON :=
  { service_name := some "Netflix", price := some 15, user_id := some userU1,
    start_date := some "03-2024", end_date := some "05-2024" }

/-- Table left by `POST /subscriptions` with the Netflix body (03-2024 to
05-2024, price 15) sent to an empty store. -/
def netflixTable : DB :=
  (SubscriptionController.CreateSubscription sampleEnv [] netflixBody).2

/-- Body of an update request that carries the price -5. -/
def negativePriceBody : Subscription :=
  { ID := uuid.Nil, ServiceName := "Netflix", Price := -5, UserID := userU1,
    StartDate := 1704067200000000, EndDate := none, DeletedAt := none }

/-- Table that `PUT /subscriptions/:id` leaves when that body is sent for the
subscription of `netflixTable`. -/
def negativePriceTable : DB :=
  (SubscriptionController.UpdateSubscription sampleEnv netflixTable (some freshID)
    (.ok negativePriceBody)).2

/-- Table with one live row: Netflix at price 15 for the sample user, open-ended
from 01-2024. -/
def sampleTable : DB :=
  [{ ID := freshID, ServiceName := "Netflix", Price := 15, UserID := userU1,
     StartDate := 1704067200000000, EndDate := none, DeletedAt := none }]

/-- Row of an open-ended subscription that starts in 01-2020. -/
def openEndedRow : Subscription :=
  { ID := freshID, ServiceName := "Netflix", Price := 15, UserID := userU1,
    StartDate := Date 2020 1 1, EndDate := none, DeletedAt := none }

/-- Row of the Netflix subscription from 03-2024 to 05-2024. -/
def netflixRow : Subscription :=
  { ID := freshID, ServiceName := "Netflix", Price := 15, UserID := userU1,
    StartDate := Date 2024 3 1, EndDate := some (Date 2024 5 1), DeletedAt := none }

/-- Identifier that `uuid.New()` draws for a second creation. -/
def secondID : UUID := 0x9b2c7d10e4f54a6c8d3e5f60718293a4

/-- Surroundings of a second creation. -/
def secondEnv : Env := { now := 1767225600000000, newUUID := secondID }

/-- Body of a create request at the largest price an `int` holds: Netflix,
open-ended from 01-2024. -/
def maxPriceBodyA : CreateSubscriptionJSON :=
  { service_name := some "Netflix", price := some 9223372036854775807,
    user_id := some userU1, start_date := some "01-2024", end_date := none }

/-- Body of a create request at the largest price an `int` holds: Spotify,
open-ended from 01-2024. -/
def maxPriceBodyB : CreateSubscriptionJSON :=
  { service_name := some "Spotify", price := some 9223372036854775807,
    user_id := some userU1, start_date := some "01-2024", end_date := none }

/-- Table left by `POST /subscriptions` with the two bodies of largest price,
one after the other, on an empty store. -/
def maxPriceTable : DB :=
  (SubscriptionController.CreateSubscription secondEnv
    (SubscriptionController.CreateSubscription sampleEnv [] maxPriceBodyA).2 maxPriceBodyB).2

/-- Table left by `POST /subscriptions` with the first body of largest price
and then the Netflix body (03-2024 to 05-2024, price 15). -/
def maxPriceAndNetflixTable : DB :=
  (SubscriptionController.CreateSubscription secondEnv
    (SubscriptionController.CreateSubscription sampleEnv [] maxPriceBodyA).2 netflixBody).2

/-- Body of an update request: Netflix at price 15, open-ended from 01-2024. -/
def sampleUpdateBody : Subscription :=
  { ID := uuid.Nil, ServiceName := "Netflix", Price := 15, UserID := userU1,
    StartDate := 1704067200000000, EndDate := none, DeletedAt := none }

/-! ## Lemmas -/

theorem toNat_zero_char : '0'.toNat = 48 := rfl
theorem toNat_nine_char : '9'.toNat = 57 := rfl

theorem digit_ne_sign {c : Char} (h : 48 ≤ c.toNat) : c ≠ '-' ∧ c ≠ '+' := by
  constructor <;> (intro hc; subst hc; revert h; decide)

theorem getnum_fixed_ok {l rest : List Char} {n : Int} (h : getnum l true = .ok (n, rest)) :
    ∃ a b, l = a :: b :: rest ∧ isDecimalDigit a = true ∧ isDecimalDigit b = true
      ∧ n = digitValue a * 10 + digitValue b := by
  rcases l with _ | ⟨a, _ | ⟨b, r⟩⟩
  · simp [getnum, isDigit] at h
  · simp [getnum, isDigit] at h
  · refine ⟨a, b, ?_⟩
    simp only [getnum, isDigit, digitAt, List.get?, toNat_zero_char, toNat_nine_char] at h
    split at h
    · cases h
    · split at h
      · simp at h
      · simp only [Except.ok.injEq, Prod.mk.injEq, List.drop] at h
        rename_i h1 h2
        simp only [isDecimalDigit, digitValue]
        refine ⟨by rw [h.2], by simpa using h1, by simpa using h2, ?_⟩
        rw [← h.1]; push_cast; ring

theorem skip_hyphen_ok {v rest : List Char} (h : skip v ['-'] = .ok rest) : v = '-' :: rest := by
  rcases v with _ | ⟨c, r⟩
  · simp [skip] at h
  · simp only [skip] at h
    split at h
    · cases h
    · rename_i hc
      simp only [Except.ok.injEq] at h
      simp only [ne_eq, Decidable.not_not] at hc
      rw [hc, h]

theorem leadingInt_digit (x : Int) (c : Char) (s : List Char)
    (hc : isDecimalDigit c = true) (hx : 0 ≤ x ∧ x ≤ 999) :
    leadingInt x (c :: s) = leadingInt (x * 10 + digitValue c) s := by
  have e63 : (2 : Int) ^ 63 = 9223372036854775808 := by norm_num
  simp only [isDecimalDigit, Bool.and_eq_true, decide_eq_true_eq] at hc
  simp only [leadingInt, toNat_zero_char, toNat_nine_char, digitValue, e63]
  rw [if_neg (by omega), if_neg (by omega), if_neg (by omega)]
  congr 1
  omega

theorem leadingInt_stop (x : Int) (c : Char) (s : List Char) (hc : isDecimalDigit c = false) :
    leadingInt x (c :: s) = .ok (x, c :: s) := by
  simp only [isDecimalDigit, Bool.and_eq_false_iff, decide_eq_false_iff_not] at hc
  simp only [leadingInt, toNat_zero_char, toNat_nine_char]
  rw [if_pos (by omega)]

theorem digitValue_range {c : Char} (hc : isDecimalDigit c = true) :
    0 ≤ digitValue c ∧ digitValue c ≤ 9 := by
  simp only [isDecimalDigit, Bool.and_eq_true, decide_eq_true_eq] at hc
  simp only [digitValue]
  omega

theorem atoi_digit_head (a : Char) (r : List Char) (ha : isDecimalDigit a = true) :
    atoi (a :: r) = match leadingInt 0 (a :: r) with
      | .error _ => .error .errBad
      | .ok (q, rem) => if rem.length > 0 then .error .errBad else .ok q := by
  simp only [isDecimalDigit, Bool.and_eq_true, decide_eq_true_eq] at ha
  obtain ⟨h1, h2⟩ := digit_ne_sign ha.1
  simp [atoi, h1, h2]

theorem atoi_four_ok {a b c d : Char} {year : Int} (ha : isDecimalDigit a = true)
    (h : atoi [a, b, c, d] = .ok year) :
    isDecimalDigit b = true ∧ isDecimalDigit c = true ∧ isDecimalDigit d = true
      ∧ year = digitValue a * 1000 + digitValue b * 100 + digitValue c * 10 + digitValue d := by
  have ra := digitValue_range ha
  rw [atoi_digit_head a _ ha, leadingInt_digit 0 a _ ha (by omega)] at h
  cases hb : isDecimalDigit b
  · rw [leadingInt_stop _ _ _ hb] at h; simp at h
  have rb := digitValue_range hb
  rw [leadingInt_digit _ b _ hb (by omega)] at h
  cases hc : isDecimalDigit c
  · rw [leadingInt_stop _ _ _ hc] at h; simp at h
  have rc := digitValue_range hc
  rw [leadingInt_digit _ c _ hc (by omega)] at h
  cases hd : isDecimalDigit d
  · rw [leadingInt_stop _ _ _ hd] at h; simp at h
  rw [leadingInt_digit _ d _ hd (by omega)] at h
  simp only [leadingInt, List.length_nil, gt_iff_lt, lt_self_iff_false, ↓reduceIte,
    Except.ok.injEq] at h
  refine ⟨rfl, rfl, rfl, ?_⟩
  rw [← h]; ring

theorem atoi_four_digits {a b c d : Char} (ha : isDecimalDigit a = true)
    (hb : isDecimalDigit b = true) (hc : isDecimalDigit c = true) (hd : isDecimalDigit d = true) :
    atoi [a, b, c, d]
      = .ok (digitValue a * 1000 + digitValue b * 100 + digitValue c * 10 + digitValue d) := by
  have ra := digitValue_range ha
  have rb := digitValue_range hb
  have rc := digitValue_range hc
  rw [atoi_digit_head a _ ha, leadingInt_digit 0 a _ ha (by omega),
    leadingInt_digit _ b _ hb (by omega), leadingInt_digit _ c _ hc (by omega),
    leadingInt_digit _ d _ hd (by omega)]
  simp only [leadingInt, List.length_nil, gt_iff_lt, lt_self_iff_false, ↓reduceIte,
    Except.ok.injEq]
  ring

/-- Shape of every string that `Parse_01_2006` accepts. -/
theorem Parse_ok_inv {l : List Char} {t : Time} (h : Parse_01_2006 l = .ok t) :
    ∃ m1 m2 y1 y2 y3 y4, l = [m1, m2, '-', y1, y2, y3, y4]
      ∧ isDecimalDigit m1 = true ∧ isDecimalDigit m2 = true
      ∧ isDecimalDigit y1 = true ∧ isDecimalDigit y2 = true
      ∧ isDecimalDigit y3 = true ∧ isDecimalDigit y4 = true
      ∧ 1 ≤ digitValue m1 * 10 + digitValue m2 ∧ digitValue m1 * 10 + digitValue m2 ≤ 12
      ∧ t = Date (digitValue y1 * 1000 + digitValue y2 * 100 + digitValue y3 * 10 + digitValue y4)
            (digitValue m1 * 10 + digitValue m2) 1 := by
  unfold Parse_01_2006 at h
  cases hg : getnum l true with
  | error e => rw [hg] at h; cases h
  | ok p =>
    obtain ⟨month, v1⟩ := p
    rw [hg] at h
    obtain ⟨m1, m2, hl, hm1, hm2, hmonth⟩ := getnum_fixed_ok hg
    simp only at h
    split at h
    · cases h
    rename_i hrange
    cases hs : skip v1 ['-'] with
    | error e => rw [hs] at h; cases h
    | ok v2 =>
      rw [hs] at h
      have hv1 := skip_hyphen_ok hs
      simp only at h
      split at h
      · cases h
      rename_i hlen
      simp only [not_or, not_lt, Bool.not_eq_true, Bool.not_eq_false] at hlen
      rcases v2 with _ | ⟨y1, _ | ⟨y2, _ | ⟨y3, _ | ⟨y4, rest⟩⟩⟩⟩
      · simp at hlen
      · simp at hlen
      · simp at hlen
      · simp at hlen
      have hy1 : isDecimalDigit y1 = true := by
        have := hlen.2
        simpa [isDigit, isDecimalDigit, toNat_zero_char, toNat_nine_char] using this
      simp only [List.take_succ_cons, List.take_zero, List.drop_succ_cons, List.drop_zero] at h
      cases ha : atoi [y1, y2, y3, y4] with
      | error e => rw [ha] at h; cases h
      | ok year =>
        rw [ha] at h
        obtain ⟨hy2, hy3, hy4, hyear⟩ := atoi_four_ok hy1 ha
        simp only at h
        split at h
        · cases h
        rename_i hrest
        simp only [ne_eq, List.length_eq_zero, Decidable.not_not] at hrest
        simp only [Except.ok.injEq] at h
        refine ⟨m1, m2, y1, y2, y3, y4, ?_, hm1, hm2, hy1, hy2, hy3, hy4, ?_, ?_, ?_⟩
        · rw [hl, hv1, hrest]
        · omega
        · omega
        · rw [← h, hyear, hmonth]

/-- Every string of the shape MM-YYYY with a month 01..12 is accepted, and
denotes the first day of that month. -/
theorem Parse_ok_of_shape (m1 m2 y1 y2 y3 y4 : Char)
    (hm1 : isDecimalDigit m1 = true) (hm2 : isDecimalDigit m2 = true)
    (hy1 : isDecimalDigit y1 = true) (hy2 : isDecimalDigit y2 = true)
    (hy3 : isDecimalDigit y3 = true) (hy4 : isDecimalDigit y4 = true)
    (hlo : 1 ≤ digitValue m1 * 10 + digitValue m2)
    (hhi : digitValue m1 * 10 + digitValue m2 ≤ 12) :
    Parse_01_2006 [m1, m2, '-', y1, y2, y3, y4]
      = .ok (Date (digitValue y1 * 1000 + digitValue y2 * 100 + digitValue y3 * 10 + digitValue y4)
            (digitValue m1 * 10 + digitValue m2) 1) := by
  have hg : getnum [m1, m2, '-', y1, y2, y3, y4] true
      = .ok (digitValue m1 * 10 + digitValue m2, ['-', y1, y2, y3, y4]) := by
    have a1 := hm1
    have a2 := hm2
    simp only [isDecimalDigit] at a1 a2
    simp [getnum, isDigit, digitAt, toNat_zero_char, toNat_nine_char, digitValue, a1, a2]
  have hd : isDigit [y1, y2, y3, y4] 0 = true := by
    have a1 := hy1
    simp only [isDecimalDigit] at a1
    simp [isDigit, toNat_zero_char, toNat_nine_char, a1]
  unfold Parse_01_2006
  rw [hg]
  simp only
  rw [if_neg (by omega)]
  simp only [skip, ne_eq, not_true_eq_false, ↓reduceIte, hd, List.length_cons, List.length_nil,
    List.take_succ_cons, List.take_zero, List.drop_succ_cons, List.drop_zero,
    atoi_four_digits hy1 hy2 hy3 hy4]
  simp

theorem Date_first (year month : Int) : Date year month 1 = firstOfMonth year month * microsPerDay := by
  unfold Date firstOfMonth
  split <;> simp

theorem daysSinceEpoch_succ (y : Int) :
    daysSinceEpoch (y + 1) = daysSinceEpoch y + (if isLeap y then 366 else 365) := by
  unfold daysSinceEpoch isLeap
  by_cases h4 : y % 4 = 0 <;> by_cases h100 : y % 100 = 0 <;> by_cases h400 : y % 400 = 0 <;>
    simp [h4, h100, h400] <;> omega

theorem daysSinceEpoch_add (y : Int) (k : Nat) :
    daysSinceEpoch y + 365 * (k : Int) ≤ daysSinceEpoch (y + k) := by
  induction k with
  | zero => simp
  | succ n ih =>
    have h := daysSinceEpoch_succ (y + n)
    have e : y + ((n + 1 : Nat) : Int) = y + n + 1 := by push_cast; ring
    rw [e, h]
    split <;> (push_cast; omega)

theorem daysSinceEpoch_lt {y1 y2 : Int} (h : y1 < y2) :
    daysSinceEpoch y1 + 365 ≤ daysSinceEpoch y2 := by
  obtain ⟨k, hk⟩ := Int.eq_ofNat_of_zero_le (show 0 ≤ y2 - y1 by omega)
  have h1 := daysSinceEpoch_add y1 k
  have e : y1 + (k : Int) = y2 := by omega
  rw [e] at h1
  omega

theorem firstOfMonth_range (y m : Int) (h1 : 1 ≤ m) (h12 : m ≤ 12) :
    daysSinceEpoch y ≤ firstOfMonth y m ∧ firstOfMonth y m ≤ daysSinceEpoch y + 335 := by
  have hm : m = 1 ∨ m = 2 ∨ m = 3 ∨ m = 4 ∨ m = 5 ∨ m = 6 ∨ m = 7 ∨ m = 8 ∨ m = 9 ∨ m = 10
      ∨ m = 11 ∨ m = 12 := by omega
  unfold firstOfMonth
  rcases hm with h | h | h | h | h | h | h | h | h | h | h | h <;> subst h <;>
    cases isLeap y <;> simp [daysBefore] <;> omega

theorem firstOfMonth_lt_month (y m1 m2 : Int) (h1 : 1 ≤ m1) (h : m1 < m2) (h12 : m2 ≤ 12) :
    firstOfMonth y m1 < firstOfMonth y m2 := by
  have hm1 : m1 = 1 ∨ m1 = 2 ∨ m1 = 3 ∨ m1 = 4 ∨ m1 = 5 ∨ m1 = 6 ∨ m1 = 7 ∨ m1 = 8 ∨ m1 = 9
      ∨ m1 = 10 ∨ m1 = 11 := by omega
  have hm2 : m2 = 2 ∨ m2 = 3 ∨ m2 = 4 ∨ m2 = 5 ∨ m2 = 6 ∨ m2 = 7 ∨ m2 = 8 ∨ m2 = 9
      ∨ m2 = 10 ∨ m2 = 11 ∨ m2 = 12 := by omega
  unfold firstOfMonth
  cases isLeap y <;>
    rcases hm1 with h | h | h | h | h | h | h | h | h | h | h <;> subst h <;>
    rcases hm2 with h | h | h | h | h | h | h | h | h | h | h <;> subst h <;>
    first
      | (exfalso; omega)
      | (simp [daysBefore]; done)
      | (simp [daysBefore]; omega)

/-- The first days of two months are ordered on the time line as the pairs
(year, month) are ordered lexicographically. -/
theorem Date_lt_iff (y1 m1 y2 m2 : Int) (h1 : 1 ≤ m1 ∧ m1 ≤ 12) (h2 : 1 ≤ m2 ∧ m2 ≤ 12) :
    Date y1 m1 1 < Date y2 m2 1 ↔ (y1 < y2 ∨ (y1 = y2 ∧ m1 < m2)) := by
  rw [Date_first, Date_first]
  have hpos : (0 : Int) < microsPerDay := by unfold microsPerDay; norm_num
  rw [mul_lt_mul_right hpos]
  have r1 := firstOfMonth_range y1 m1 h1.1 h1.2
  have r2 := firstOfMonth_range y2 m2 h2.1 h2.2
  constructor
  · intro h
    by_contra hc
    have hc1 : ¬ y1 < y2 := fun a => hc (Or.inl a)
    rcases lt_or_eq_of_le (not_lt.mp hc1) with hy | hy
    · have := daysSinceEpoch_lt hy
      omega
    · subst hy
      have hm : ¬ m1 < m2 := fun a => hc (Or.inr ⟨rfl, a⟩)
      rcases lt_or_eq_of_le (not_lt.mp hm) with hm | hm
      · have := firstOfMonth_lt_month y2 m2 m1 h2.1 hm h1.2
        omega
      · subst hm; omega
  · rintro (hy | ⟨hy, hm⟩)
    · have := daysSinceEpoch_lt hy
      omega
    · subst hy
      exact firstOfMonth_lt_month y1 m1 m2 h1.1 hm h2.2

theorem fitsInt_iff (n : Int) : fitsInt n = true ↔ (minInt ≤ n ∧ n ≤ maxInt) := by
  simp [fitsInt]

theorem scanInt_of_fits {n : Int} (h : fitsInt n = true) : scanInt n = .ok n := by
  unfold scanInt
  rw [if_pos h]

theorem scanInt_of_not_fits {n : Int} (h : fitsInt n = false) :
    scanInt n = .error .scanOutOfRange := by
  unfold scanInt
  rw [if_neg (by simp [h])]

theorem scanInt_ok_inv {n m : Int} (h : scanInt n = .ok m) : m = n ∧ fitsInt n = true := by
  unfold scanInt at h
  split at h
  · rename_i hf
    cases h
    exact ⟨rfl, hf⟩
  · cases h

theorem sumPrice_getD (q : Query) : q.sumPrice.getD 0 = (q.rows.map Subscription.Price).sum := by
  unfold Query.sumPrice
  split <;> rename_i h <;> rw [h] <;> simp

theorem sqlAnd_some (a b : Bool) : sqlAnd (some a) (some b) = some (a && b) := by
  cases a <;> cases b <;> rfl

theorem sqlOr_some (a b : Bool) : sqlOr (some a) (some b) = some (a || b) := by
  cases a <;> cases b <;> rfl

theorem sqlOr_true_left (x : SQLBool) : sqlOr (some true) x = some true := by
  rcases x with _ | _ | _ <;> rfl

theorem some_beq_some_true (a : Bool) : ((some a : SQLBool) == some true) = a := by
  cases a <;> rfl

theorem costQuery_whereClause (db : DB) (userID : Option UUID) (serviceName : Option String)
    (startDate endDate : Time) (r : Subscription) :
    let query := (gorm.Model db).Where (fun r =>
      sqlAnd (sqlLe (some r.StartDate) (some endDate))
        (sqlOr (sqlIsNull r.EndDate) (sqlGe r.EndDate (some startDate))))
    let query := match userID with
      | some u => query.Where (fun r => sqlEq (some r.UserID) (some u))
      | none => query
    let query := match serviceName with
      | some n => query.Where (fun r => sqlEq (some r.ServiceName) (some n))
      | none => query
    (query.whereClause r == some true) = qualifies userID serviceName startDate endDate r := by
  rcases r with ⟨id, sn, pr, uid, sd, ed, del⟩
  cases userID <;> cases serviceName <;> cases ed <;> cases del <;>
    simp only [gorm.Model, Query.Where, Query.whereClause, softDeleteClause, qualifies,
      List.nil_append, List.cons_append, List.foldl_cons, List.foldl_nil, sqlLe, sqlGe, sqlEq,
      sqlIsNull, Option.isNone_none, Option.isNone_some, sqlOr_true_left, sqlOr_some,
      sqlAnd_some, some_beq_some_true, Bool.true_and, Bool.and_true, Bool.false_or,
      Bool.and_false, Bool.false_and]

theorem repository_total_eq_spec (db : DB) (userID : Option UUID) (serviceName : Option String)
    (startDate endDate : Time) :
    subscriptionRepository.CalculateTotalCost db userID serviceName startDate endDate
      = scanInt (specTotalCost db userID serviceName startDate endDate) := by
  have hw := costQuery_whereClause db userID serviceName startDate endDate
  unfold subscriptionRepository.CalculateTotalCost Query.SelectCoalesceSumPrice specTotalCost
  simp only [sumPrice_getD]
  congr 3
  unfold Query.rows
  have ht : ∀ q : Query, ∀ c, (q.Where c).table = q.table := fun _ _ => rfl
  cases userID <;> cases serviceName <;> simp only [ht, gorm.Model] <;>
    exact List.filter_congr (fun r _ => hw r)

theorem qualifies_iff (userID : Option UUID) (serviceName : Option String)
    (startDate endDate : Time) (r : Subscription) :
    qualifies userID serviceName startDate endDate r = true ↔
      (r.DeletedAt = none ∧ r.StartDate ≤ endDate
        ∧ (r.EndDate = none ∨ ∃ e, r.EndDate = some e ∧ e ≥ startDate)
        ∧ (∀ u, userID = some u → r.UserID = u)
        ∧ (∀ n, serviceName = some n → r.ServiceName = n)) := by
  rcases r with ⟨id, sn, pr, uid, sd, ed, del⟩
  cases userID <;> cases serviceName <;> cases ed <;> cases del <;>
    simp [qualifies, and_assoc]

theorem specTotalCost_append (db1 db2 : DB) (userID : Option UUID) (serviceName : Option String)
    (startDate endDate : Time) :
    specTotalCost (db1 ++ db2) userID serviceName startDate endDate
      = specTotalCost db1 userID serviceName startDate endDate
        + specTotalCost db2 userID serviceName startDate endDate := by
  simp [specTotalCost]

theorem specTotalCost_cons (r : Subscription) (db : DB) (userID : Option UUID)
    (serviceName : Option String) (startDate endDate : Time) :
    specTotalCost (r :: db) userID serviceName startDate endDate
      = (if qualifies userID serviceName startDate endDate r = true then r.Price else 0)
        + specTotalCost db userID serviceName startDate endDate := by
  unfold specTotalCost
  by_cases h : qualifies userID serviceName startDate endDate r = true
  · simp [List.filter_cons, h]
  · simp [List.filter_cons, h]

/-- Total of a table into which one row is put, against the total without it. -/
theorem specTotalCost_insert (db1 db2 : DB) (r : Subscription) (userID : Option UUID)
    (serviceName : Option String) (startDate endDate : Time) :
    specTotalCost (db1 ++ r :: db2) userID serviceName startDate endDate
      = specTotalCost (db1 ++ db2) userID serviceName startDate endDate
        + (if qualifies userID serviceName startDate endDate r = true then r.Price else 0) := by
  rw [specTotalCost_append, specTotalCost_cons, specTotalCost_append]
  ring

theorem sum_filter_mono (l : DB) (p q : Subscription → Bool)
    (hpq : ∀ r ∈ l, p r = true → q r = true)
    (hpos : ∀ r ∈ l, q r = true → 0 ≤ r.Price) :
    ((l.filter p).map Subscription.Price).sum ≤ ((l.filter q).map Subscription.Price).sum := by
  induction l with
  | nil => simp
  | cons a t ih =>
    have iht := ih (fun r hr => hpq r (List.mem_cons_of_mem _ hr))
      (fun r hr => hpos r (List.mem_cons_of_mem _ hr))
    have ha := hpq a (List.mem_cons_self _ _)
    have hp := hpos a (List.mem_cons_self _ _)
    by_cases h1 : p a = true
    · have h2 := ha h1
      simp only [List.filter_cons, h1, h2, ↓reduceIte, List.map_cons, List.sum_cons]
      omega
    · have h1f : p a = false := by simpa using h1
      by_cases h2 : q a = true
      · have := hp h2
        rw [List.filter_cons_of_neg (by simp [h1f]), List.filter_cons_of_pos h2]
        simp only [List.map_cons, List.sum_cons]
        omega
      · rw [List.filter_cons_of_neg (by simp [h1f]), List.filter_cons_of_neg h2]
        exact iht

theorem service_total_eq_spec (db : DB) (userID : Option UUID) (serviceName : Option String)
    (qs qe : String) (a b : Time) (ha : parseMonthYear qs = .ok a)
    (hb : parseMonthYear qe = .ok b) :
    subscriptionService.CalculateTotalCost db userID serviceName qs qe
      = scanInt (specTotalCost db userID serviceName a b) := by
  unfold subscriptionService.CalculateTotalCost
  rw [ha, hb]
  exact repository_total_eq_spec db userID serviceName a b

theorem wellFormed_shape {s : String} {y m : Int} (h : wellFormedMonthYear s = some (y, m)) :
    ∃ m1 m2 y1 y2 y3 y4, s.data = [m1, m2, '-', y1, y2, y3, y4]
      ∧ isDecimalDigit m1 = true ∧ isDecimalDigit m2 = true
      ∧ isDecimalDigit y1 = true ∧ isDecimalDigit y2 = true
      ∧ isDecimalDigit y3 = true ∧ isDecimalDigit y4 = true
      ∧ 1 ≤ digitValue m1 * 10 + digitValue m2 ∧ digitValue m1 * 10 + digitValue m2 ≤ 12
      ∧ y = digitValue y1 * 1000 + digitValue y2 * 100 + digitValue y3 * 10 + digitValue y4
      ∧ m = digitValue m1 * 10 + digitValue m2 := by
  unfold wellFormedMonthYear at h
  split at h
  · rename_i m1 m2 hy y1 y2 y3 y4 hdata
    simp only at h
    split at h
    · rename_i hc
      simp only [Bool.and_eq_true, decide_eq_true_eq] at hc
      simp only [Option.some.injEq, Prod.mk.injEq] at h
      obtain ⟨⟨⟨⟨⟨⟨⟨⟨h1, h2⟩, h3⟩, h4⟩, h5⟩, h6⟩, h7⟩, h8⟩, h9⟩ := hc
      refine ⟨m1, m2, y1, y2, y3, y4, ?_, h1, h2, h4, h5, h6, h7, h8, h9, h.1.symm, h.2.symm⟩
      rw [hdata, h3]
    · cases h
  · cases h

theorem wellFormed_of_shape {s : String} (m1 m2 y1 y2 y3 y4 : Char)
    (hdata : s.data = [m1, m2, '-', y1, y2, y3, y4])
    (hm1 : isDecimalDigit m1 = true) (hm2 : isDecimalDigit m2 = true)
    (hy1 : isDecimalDigit y1 = true) (hy2 : isDecimalDigit y2 = true)
    (hy3 : isDecimalDigit y3 = true) (hy4 : isDecimalDigit y4 = true)
    (hlo : 1 ≤ digitValue m1 * 10 + digitValue m2)
    (hhi : digitValue m1 * 10 + digitValue m2 ≤ 12) :
    wellFormedMonthYear s
      = some (digitValue y1 * 1000 + digitValue y2 * 100 + digitValue y3 * 10 + digitValue y4,
          digitValue m1 * 10 + digitValue m2) := by
  unfold wellFormedMonthYear
  rw [hdata]
  simp [hm1, hm2, hy1, hy2, hy3, hy4, hlo, hhi]

theorem parse_of_wellFormed {s : String} {y m : Int} (h : wellFormedMonthYear s = some (y, m)) :
    parseMonthYear s = .ok (Date y m 1) ∧ 1 ≤ m ∧ m ≤ 12 ∧ 0 ≤ y ∧ y ≤ 9999 := by
  obtain ⟨m1, m2, y1, y2, y3, y4, hdata, hm1, hm2, hy1, hy2, hy3, hy4, hlo, hhi, hy, hm⟩ :=
    wellFormed_shape h
  have r1 := digitValue_range hy1
  have r2 := digitValue_range hy2
  have r3 := digitValue_range hy3
  have r4 := digitValue_range hy4
  refine ⟨?_, by omega, by omega, by omega, by omega⟩
  unfold parseMonthYear
  rw [hdata, hy, hm]
  exact Parse_ok_of_shape m1 m2 y1 y2 y3 y4 hm1 hm2 hy1 hy2 hy3 hy4 hlo hhi

theorem wellFormed_of_parse {s : String} {t : Time} (h : parseMonthYear s = .ok t) :
    ∃ y m, wellFormedMonthYear s = some (y, m) ∧ t = Date y m 1 := by
  obtain ⟨m1, m2, y1, y2, y3, y4, hdata, hm1, hm2, hy1, hy2, hy3, hy4, hlo, hhi, ht⟩ :=
    Parse_ok_inv h
  exact ⟨_, _, wellFormed_of_shape m1 m2 y1 y2 y3 y4 hdata hm1 hm2 hy1 hy2 hy3 hy4 hlo hhi, ht⟩

theorem parse_error_of_not_wellFormed {s : String} (h : wellFormedMonthYear s = none) :
    ∃ e, parseMonthYear s = .error e := by
  cases hp : parseMonthYear s with
  | error e => exact ⟨e, rfl⟩
  | ok t =>
    obtain ⟨y, m, hw, _⟩ := wellFormed_of_parse hp
    rw [h] at hw
    cases hw

theorem gorm_Delete_eq (env : Env) (db : DB) (id : UUID) :
    gorm.Delete env db id = .ok (db.map (markDeleted env id)) := rfl

theorem markDeleted_ID (env : Env) (id : UUID) (r : Subscription) :
    (markDeleted env id r).ID = r.ID := by
  unfold markDeleted
  split <;> rfl

theorem markDeleted_Price (env : Env) (id : UUID) (r : Subscription) :
    (markDeleted env id r).Price = r.Price := by
  unfold markDeleted
  split <;> rfl

theorem markDeleted_live (env : Env) (id : UUID) (r : Subscription) :
    (markDeleted env id r).DeletedAt.isNone = (r.DeletedAt.isNone && decide (r.ID ≠ id)) := by
  unfold markDeleted
  by_cases h1 : r.ID = id <;> cases h2 : r.DeletedAt <;> simp [h1, h2]

theorem markDeleted_of_ne (env : Env) (id : UUID) (r : Subscription) (h : r.ID ≠ id) :
    markDeleted env id r = r := by
  unfold markDeleted
  rw [if_neg (fun hc => h hc.1)]

theorem markDeleted_qualifies (env : Env) (id : UUID) (userID : Option UUID)
    (serviceName : Option String) (startDate endDate : Time) (r : Subscription) :
    qualifies userID serviceName startDate endDate (markDeleted env id r)
      = (qualifies userID serviceName startDate endDate r && decide (r.ID ≠ id)) := by
  by_cases h1 : r.ID = id
  · cases h2 : r.DeletedAt with
    | none =>
      have e : markDeleted env id r = { r with DeletedAt := some env.now } := by
        unfold markDeleted
        rw [if_pos ⟨h1, h2⟩]
      rw [e]
      simp [qualifies, h1]
    | some d =>
      have e : markDeleted env id r = r := by
        unfold markDeleted
        rw [if_neg (fun hc => by rw [h2] at hc; cases hc.2)]
      rw [e]
      simp [qualifies, h1, h2]
  · rw [markDeleted_of_ne env id r h1]
    simp [h1]

theorem filter_live_markDeleted (env : Env) (id : UUID) (db : DB) :
    (db.map (markDeleted env id)).filter (fun r => r.DeletedAt.isNone)
      = (db.filter (fun r => r.DeletedAt.isNone)).filter (fun r => decide (r.ID ≠ id)) := by
  induction db with
  | nil => rfl
  | cons a t ih =>
    by_cases h1 : a.ID = id
    · cases h2 : a.DeletedAt with
      | none =>
        have e : markDeleted env id a = { a with DeletedAt := some env.now } := by
          unfold markDeleted
          rw [if_pos ⟨h1, h2⟩]
        simp [List.filter_cons, e, h1, h2, ih]
      | some d =>
        have e : markDeleted env id a = a := by
          unfold markDeleted
          rw [if_neg (fun hc => by rw [h2] at hc; cases hc.2)]
        simp [List.filter_cons, e, h2, ih]
    · rw [List.map_cons, markDeleted_of_ne env id a h1]
      cases h2 : a.DeletedAt <;> simp [List.filter_cons, h1, h2, ih]

theorem specTotalCost_markDeleted (env : Env) (id : UUID) (db : DB) (userID : Option UUID)
    (serviceName : Option String) (startDate endDate : Time) :
    specTotalCost (db.map (markDeleted env id)) userID serviceName startDate endDate
      = specTotalCost (db.filter (fun r => decide (r.ID ≠ id))) userID serviceName
          startDate endDate := by
  unfold specTotalCost
  induction db with
  | nil => rfl
  | cons a t ih =>
    have hq := markDeleted_qualifies env id userID serviceName startDate endDate a
    have hp := markDeleted_Price env id a
    by_cases h1 : a.ID = id
    · have hq1 : qualifies userID serviceName startDate endDate (markDeleted env id a) = false := by
        rw [hq]; simp [h1]
      simp only [List.map_cons, List.filter_cons, hq1, h1, ne_eq, not_true_eq_false,
        decide_False, Bool.false_eq_true, ↓reduceIte]
      exact ih
    · have hq1 : qualifies userID serviceName startDate endDate (markDeleted env id a)
          = qualifies userID serviceName startDate endDate a := by
        rw [hq]; simp [h1]
      have hd : decide (a.ID ≠ id) = true := by simp [h1]
      rw [List.map_cons, List.filter_cons, hq1, List.filter_cons, hd]
      simp only [↓reduceIte]
      by_cases h2 : qualifies userID serviceName startDate endDate a = true
      · rw [List.filter_cons, if_pos h2, if_pos h2, List.map_cons, List.map_cons, List.sum_cons,
          List.sum_cons, hp, ih]
      · rw [List.filter_cons, if_neg h2, if_neg h2, ih]

theorem specTotalCost_split_id (id : UUID) (db : DB) (userID : Option UUID)
    (serviceName : Option String) (startDate endDate : Time) :
    specTotalCost db userID serviceName startDate endDate
      = specTotalCost (db.filter (fun r => decide (r.ID ≠ id))) userID serviceName
          startDate endDate
        + specTotalCost (db.filter (fun r => decide (r.ID = id))) userID serviceName
          startDate endDate := by
  induction db with
  | nil => rfl
  | cons a t ih =>
    by_cases h1 : a.ID = id
    · have e1 : (a :: t).filter (fun r => decide (r.ID ≠ id))
          = t.filter (fun r => decide (r.ID ≠ id)) := by simp [List.filter_cons, h1]
      have e2 : (a :: t).filter (fun r => decide (r.ID = id))
          = a :: t.filter (fun r => decide (r.ID = id)) := by simp [List.filter_cons, h1]
      rw [e1, e2, specTotalCost_cons, specTotalCost_cons, ih]
      ring
    · have e1 : (a :: t).filter (fun r => decide (r.ID ≠ id))
          = a :: t.filter (fun r => decide (r.ID ≠ id)) := by simp [List.filter_cons, h1]
      have e2 : (a :: t).filter (fun r => decide (r.ID = id))
          = t.filter (fun r => decide (r.ID = id)) := by simp [List.filter_cons, h1]
      rw [e1, e2, specTotalCost_cons, specTotalCost_cons, ih]
      ring

theorem filter_id_markDeleted_self (env : Env) (id : UUID) (db : DB) :
    (db.map (markDeleted env id)).filter (fun r => decide (r.ID = id) && r.DeletedAt.isNone)
      = [] := by
  rw [List.filter_eq_nil_iff]
  intro r hr
  rw [List.mem_map] at hr
  obtain ⟨a, _, rfl⟩ := hr
  rw [markDeleted_ID, markDeleted_live]
  by_cases h : a.ID = id <;> simp [h]

theorem filter_id_markDeleted_other (env : Env) (id j : UUID) (hj : j ≠ id) (db : DB) :
    (db.map (markDeleted env id)).filter (fun r => decide (r.ID = j) && r.DeletedAt.isNone)
      = db.filter (fun r => decide (r.ID = j) && r.DeletedAt.isNone) := by
  induction db with
  | nil => rfl
  | cons a t ih =>
    by_cases h1 : a.ID = id
    · have hne : ¬ a.ID = j := fun hc => hj (hc.symm.trans h1)
      have e1 : (decide ((markDeleted env id a).ID = j) && (markDeleted env id a).DeletedAt.isNone)
          = false := by rw [markDeleted_ID]; simp [hne]
      have e2 : (decide (a.ID = j) && a.DeletedAt.isNone) = false := by simp [hne]
      rw [List.map_cons, List.filter_cons, List.filter_cons, e1, e2]
      simpa using ih
    · rw [List.map_cons, markDeleted_of_ne env id a h1, List.filter_cons, List.filter_cons, ih]

theorem map_unmark_markDeleted (env : Env) (id : UUID) (db : DB) :
    (db.map (markDeleted env id)).map (fun r => { r with DeletedAt := none })
      = db.map (fun r => { r with DeletedAt := none }) := by
  rw [List.map_map]
  apply List.map_congr_left
  intro a _
  simp only [Function.comp, markDeleted]
  split <;> rfl

theorem wellFormed_empty : wellFormedMonthYear "" = none := by decide

theorem wellFormed_ne_empty {s : String} {ym : Int × Int} (h : wellFormedMonthYear s = some ym) :
    s ≠ "" := by
  intro hc
  subst hc
  rw [wellFormed_empty] at h
  cases h

theorem bind_ok_of (body : CreateSubscriptionJSON) (sn : String) (p : Int) (u : UUID)
    (st : String) (hsn : body.service_name = some sn) (hsne : sn ≠ "")
    (hp : body.price = some p) (hpos : 0 < p) (hfit : p ≤ maxInt)
    (hu : body.user_id = some u) (hune : u ≠ uuid.Nil)
    (hs : body.start_date = some st) (hsne2 : st ≠ "") :
    ShouldBindJSON body = .ok ⟨sn, p, u, st, body.end_date⟩ := by
  have hf : fitsInt p = true := by
    rw [fitsInt_iff]
    unfold minInt
    omega
  unfold ShouldBindJSON CreateSubscriptionRequest.decode
  simp only [hsn, hp, hu, hs, Option.getD_some, hf, ↓reduceIte]
  unfold CreateSubscriptionRequest.validate CreateSubscriptionRequest.failures
  simp only
  rw [if_neg hsne, if_neg (by omega), if_neg (by omega), if_neg hune, if_neg hsne2]
  rfl

theorem bind_ok_inv (body : CreateSubscriptionJSON) (req : CreateSubscriptionRequest)
    (hb : ShouldBindJSON body = .ok req) :
    ∃ sn p u s, body.service_name = some sn ∧ sn ≠ "" ∧ body.price = some p ∧ 0 < p
      ∧ p ≤ maxInt ∧ body.user_id = some u ∧ u ≠ uuid.Nil ∧ body.start_date = some s
      ∧ s ≠ "" ∧ req = ⟨sn, p, u, s, body.end_date⟩ := by
  rcases body with ⟨osn, op, ou, os, oe⟩
  unfold ShouldBindJSON CreateSubscriptionRequest.decode at hb
  simp only at hb
  split at hb
  · cases hb
  rename_i req0 hdec
  split at hdec
  · rename_i hfit
    simp only [Except.ok.injEq] at hdec
    split at hb
    · cases hb
    rename_i hv
    simp only [Except.ok.injEq] at hb
    subst hb
    have hf : req0.failures = [] := by
      unfold CreateSubscriptionRequest.validate at hv
      split at hv
      · assumption
      · cases hv
    subst hdec
    unfold CreateSubscriptionRequest.failures at hf
    simp only [List.append_eq_nil] at hf
    obtain ⟨⟨⟨f1, f2⟩, f3⟩, f4⟩ := hf
    have h1 : ¬ osn.getD "" = "" := fun h => by rw [if_pos h] at f1; cases f1
    have h2 : ¬ op.getD 0 = 0 := fun h => by rw [if_pos h] at f2; cases f2
    have h3 : ¬ op.getD 0 < 0 := fun h => by rw [if_neg h2, if_pos h] at f2; cases f2
    have h4 : ¬ ou.getD uuid.Nil = uuid.Nil := fun h => by rw [if_pos h] at f3; cases f3
    have h5 : ¬ os.getD "" = "" := fun h => by rw [if_pos h] at f4; cases f4
    rw [fitsInt_iff] at hfit
    cases osn with
    | none => exact absurd rfl h1
    | some sn =>
      cases op with
      | none => exact absurd rfl h2
      | some p =>
        cases ou with
        | none => exact absurd rfl h4
        | some u =>
          cases os with
          | none => exact absurd rfl h5
          | some s =>
            simp only [Option.getD_some] at h1 h2 h3 h4 h5 hfit
            exact ⟨sn, p, u, s, rfl, h1, rfl, by omega, hfit.2, rfl, h4, rfl, h5, rfl⟩
  · cases hdec

theorem create_bind_error (env : Env) (db : DB) (body : CreateSubscriptionJSON) (err : Error)
    (h : ShouldBindJSON body = .error err) :
    SubscriptionController.CreateSubscription env db body
      = (⟨StatusBadRequest, .bindError err⟩, db) := by
  unfold SubscriptionController.CreateSubscription
  simp only [h]

theorem create_accepts (env : Env) (db : DB) (body : CreateSubscriptionJSON)
    (sn : String) (p : Int) (u : UUID) (s : String) (y m : Int) (endDate : Option Time)
    (hsn : body.service_name = some sn) (hsne : sn ≠ "")
    (hp : body.price = some p) (hpos : 0 < p) (hfit : p ≤ maxInt)
    (hu : body.user_id = some u) (hune : u ≠ uuid.Nil)
    (hs : body.start_date = some s) (hws : wellFormedMonthYear s = some (y, m))
    (hend : (body.end_date = none ∧ endDate = none)
      ∨ ∃ e ye me, body.end_date = some e ∧ wellFormedMonthYear e = some (ye, me)
          ∧ endDate = some (Date ye me 1)) :
    SubscriptionController.CreateSubscription env db body
      = createOutcome db (subscriptionService.CreateSubscription env db
          { ID := uuid.Nil, ServiceName := sn, Price := p, UserID := u,
            StartDate := Date y m 1, EndDate := endDate, DeletedAt := none }) := by
  have hsne2 := wellFormed_ne_empty hws
  have hps : Parse_01_2006 s.data = .ok (Date y m 1) := (parse_of_wellFormed hws).1
  have hb := bind_ok_of body sn p u s hsn hsne hp hpos hfit hu hune hs hsne2
  unfold SubscriptionController.CreateSubscription
  simp only [hb, hps]
  rcases hend with ⟨he, hE⟩ | ⟨e, ye, me, he, hwe, hE⟩
  · rw [he, hE]
    rfl
  · have hpe : Parse_01_2006 e.data = .ok (Date ye me 1) := (parse_of_wellFormed hwe).1
    rw [he, hE]
    simp only [hpe]
    rfl

/-- Every request to create is either answered 400 with the table untouched,
or is one of the accepted bodies and is handed to the service. -/
theorem create_cases (env : Env) (db : DB) (body : CreateSubscriptionJSON) :
    ((SubscriptionController.CreateSubscription env db body).1.status = StatusBadRequest
      ∧ (SubscriptionController.CreateSubscription env db body).2 = db
      ∧ (clientError body ∨ body.price = some 0))
    ∨ (¬ clientError body ∧ ∃ sn p u s y m endDate,
        body.service_name = some sn ∧ sn ≠ "" ∧ body.price = some p ∧ 0 < p ∧ p ≤ maxInt
        ∧ body.user_id = some u ∧ u ≠ uuid.Nil
        ∧ body.start_date = some s ∧ wellFormedMonthYear s = some (y, m)
        ∧ ((body.end_date = none ∧ endDate = none)
          ∨ ∃ e ye me, body.end_date = some e ∧ wellFormedMonthYear e = some (ye, me)
              ∧ endDate = some (Date ye me 1))) := by
  cases hb : ShouldBindJSON body with
  | error err =>
    left
    rw [create_bind_error env db body err hb]
    refine ⟨rfl, rfl, ?_⟩
    unfold clientError
    by_contra hc
    simp only [not_or, not_exists, not_and] at hc
    obtain ⟨⟨c1, c2, c3, c4, c5, c6, c7, c8, c9⟩, c0⟩ := hc
    cases hosn : body.service_name with
    | none => exact c1 hosn
    | some sn =>
      cases hop : body.price with
      | none => exact c3 hop
      | some p =>
        cases hou : body.user_id with
        | none => exact c5 hou
        | some u =>
          cases hos : body.start_date with
          | none => exact c7 hos
          | some s =>
            have hsn : sn ≠ "" := fun h => c2 (by rw [hosn, h])
            have hp0 : p ≠ 0 := fun h => c0 (by rw [hop, h])
            have hpr := c4 p hop
            have hu : u ≠ uuid.Nil := fun h => c6 (by rw [hou, h])
            have hs : s ≠ "" := fun h => by
              have := c8 s hos
              rw [h] at this
              exact this wellFormed_empty
            rw [bind_ok_of body sn p u s hosn hsn hop (by omega) (by omega) hou hu hos hs] at hb
            cases hb
  | ok req =>
    obtain ⟨sn, p, u, s, hsn, hsne, hp, hpos, hfit, hu, hune, hs, hsne2, hreq⟩ :=
      bind_ok_inv body req hb
    subst hreq
    cases hws : wellFormedMonthYear s with
    | none =>
      left
      obtain ⟨err, herr⟩ := parse_error_of_not_wellFormed hws
      unfold parseMonthYear at herr
      have : SubscriptionController.CreateSubscription env db body
          = (⟨StatusBadRequest, .message "Invalid start date format. Use MM-YYYY"⟩, db) := by
        unfold SubscriptionController.CreateSubscription
        simp only [hb, herr]
      rw [this]
      exact ⟨rfl, rfl, Or.inl (by
        unfold clientError
        exact Or.inr (Or.inr (Or.inr (Or.inr (Or.inr (Or.inr (Or.inr (Or.inl ⟨s, hs, hws⟩))))))))⟩
    | some ym =>
      obtain ⟨y, m⟩ := ym
      have hps : Parse_01_2006 s.data = .ok (Date y m 1) := (parse_of_wellFormed hws).1
      have hnot : ∀ (_ : ∀ e, body.end_date = some e → wellFormedMonthYear e ≠ none),
          ¬ clientError body := by
        intro hend hc
        unfold clientError at hc
        rcases hc with h | h | h | ⟨q, hq, hlt⟩ | h | h | h | ⟨t, ht, hw⟩ | ⟨e, he, hw⟩
        · rw [hsn] at h; cases h
        · rw [hsn] at h; cases h; exact hsne rfl
        · rw [hp] at h; cases h
        · rw [hp] at hq; cases hq; omega
        · rw [hu] at h; cases h
        · rw [hu] at h; cases h; exact hune rfl
        · rw [hs] at h; cases h
        · rw [hs] at ht; cases ht; rw [hws] at hw; cases hw
        · exact hend e he hw
      cases hed : body.end_date with
      | none =>
        right
        refine ⟨hnot (fun e he => by rw [hed] at he; cases he), ?_⟩
        exact ⟨sn, p, u, s, y, m, none, hsn, hsne, hp, hpos, hfit, hu, hune, hs, hws,
          Or.inl ⟨rfl, rfl⟩⟩
      | some e =>
        cases hwe : wellFormedMonthYear e with
        | none =>
          left
          obtain ⟨err, herr⟩ := parse_error_of_not_wellFormed hwe
          unfold parseMonthYear at herr
          have : SubscriptionController.CreateSubscription env db body
              = (⟨StatusBadRequest, .message "Invalid end date format. Use MM-YYYY"⟩, db) := by
            unfold SubscriptionController.CreateSubscription
            simp only [hb, hps, hed, herr]
          rw [this]
          exact ⟨rfl, rfl, Or.inl (by
            unfold clientError
            exact Or.inr (Or.inr (Or.inr (Or.inr (Or.inr (Or.inr (Or.inr (Or.inr
              ⟨e, hed, hwe⟩))))))))⟩
        | some yme =>
          obtain ⟨ye, me⟩ := yme
          right
          refine ⟨hnot (fun e2 he2 => by
            rw [hed] at he2; cases he2; rw [hwe]; exact fun h => by cases h), ?_⟩
          exact ⟨sn, p, u, s, y, m, some (Date ye me 1), hsn, hsne, hp, hpos, hfit, hu, hune, hs,
            hws, Or.inr ⟨e, ye, me, rfl, hwe, rfl⟩⟩

/-- The create handler keeps `price >= 0` on every stored row. -/
theorem create_keeps_price_nonneg (env : Env) (db : DB) (body : CreateSubscriptionJSON)
    (h : ∀ r ∈ db, 0 ≤ r.Price) :
    ∀ r ∈ (SubscriptionController.CreateSubscription env db body).2, 0 ≤ r.Price := by
  rcases create_cases env db body with ⟨_, h2, _⟩ | ⟨_, sn, p, u, s, y, m, endDate, a1, a2, a3,
      a4, af, a5, a6, a7, a8, a9⟩
  · rw [h2]
    exact h
  · rw [create_accepts env db body sn p u s y m endDate a1 a2 a3 a4 af a5 a6 a7 a8 a9]
    unfold createOutcome subscriptionService.CreateSubscription subscriptionRepository.Create
      gorm.Create gorm.insert
    simp only [Subscription.BeforeCreate]
    by_cases hdup : (List.any db fun r => decide (r.ID = env.newUUID)) = true
    · rw [if_pos hdup]
      exact h
    · rw [if_neg hdup]
      intro r hr
      simp only [List.mem_append, List.mem_singleton] at hr
      rcases hr with hr | hr
      · exact h r hr
      · rw [hr]
        exact le_of_lt a4

/-- The delete handler keeps `price >= 0` on every stored row. -/
theorem delete_keeps_price_nonneg (env : Env) (db : DB) (idParam : Option UUID)
    (h : ∀ r ∈ db, 0 ≤ r.Price) :
    ∀ r ∈ (SubscriptionController.DeleteSubscription env db idParam).2, 0 ≤ r.Price := by
  cases idParam with
  | none => exact h
  | some id =>
    intro r hr
    have hr2 : r ∈ db.map (markDeleted env id) := hr
    rw [List.mem_map] at hr2
    obtain ⟨a, ha, rfl⟩ := hr2
    rw [markDeleted_Price]
    exact h a ha

/-- On every path identifier p other than the all-zero one and every bindable
body b, `UpdateSubscription` hands to the service the record whose identifier
is p and whose other fields are those of b, the service succeeds, and the
answer is 200 with that record. -/
theorem update_keeps_path_id (env : Env) (db : DB) (p : UUID) (b : Subscription)
    (hp : p ≠ uuid.Nil) :
    (∀ q, SubscriptionController.UpdateSubscription env db (some q) (.ok b)
        = match subscriptionService.UpdateSubscription env db { b with ID := q } with
          | .error _ =>
            (⟨StatusInternalServerError, .message "Failed to update subscription"⟩, db)
          | .ok (subscription, db1) => (⟨StatusOK, .subscription subscription⟩, db1))
    ∧ ({ b with ID := p } : Subscription)
        = { ID := p, ServiceName := b.ServiceName, Price := b.Price, UserID := b.UserID,
            StartDate := b.StartDate, EndDate := b.EndDate, DeletedAt := b.DeletedAt }
    ∧ ∃ db1,
      subscriptionService.UpdateSubscription env db { b with ID := p }
        = .ok ({ b with ID := p }, db1)
      ∧ SubscriptionController.UpdateSubscription env db (some p) (.ok b)
        = (⟨StatusOK, .subscription { b with ID := p }⟩, db1)
      ∧ ({ b with ID := p } : Subscription).ID = p := by
  refine ⟨fun q => rfl, rfl, ?_⟩
  have hsave : ∃ db1, gorm.Save env db { b with ID := p } = .ok ({ b with ID := p }, db1) := by
    unfold gorm.Save
    rw [if_neg hp]
    split
    · exact ⟨_, rfl⟩
    · split
      · exact ⟨_, rfl⟩
      · exact ⟨_, rfl⟩
  obtain ⟨db1, h⟩ := hsave
  refine ⟨db1, h, ?_, rfl⟩
  unfold SubscriptionController.UpdateSubscription subscriptionService.UpdateSubscription
    subscriptionRepository.Update
  simp only [h]

/-! ## Claims -/

/-- C1, counterexample. Two subscriptions at the price 9223372036854775807 are
both accepted by the create handler and both qualify for the unfiltered query;
their sum is 18446744073709551614, and the repository `CalculateTotalCost`
returns an error, not that sum. -/
theorem total_beyond_int_is_an_error :
    (SubscriptionController.CreateSubscription sampleEnv [] maxPriceBodyA).1.status = 201
    ∧ (SubscriptionController.CreateSubscription secondEnv
        (SubscriptionController.CreateSubscription sampleEnv [] maxPriceBodyA).2
        maxPriceBodyB).1.status = 201
    ∧ ((maxPriceTable.filter (qualifies none none 1717200000000000 1717200000000000)).map
        Subscription.Price).sum = 18446744073709551614
    ∧ subscriptionRepository.CalculateTotalCost maxPriceTable none none 1717200000000000
        1717200000000000 = .error .scanOutOfRange := by
  decide

/-- C1, amended. For every table, every optional user, every optional service
name and every pair of dates, the repository `CalculateTotalCost` returns the
sum of `price` over exactly the rows that are not soft-deleted, have
`start_date <= endDate`, have no `end_date` or `end_date >= startDate`, and
equal each filter that is supplied, whenever that sum lies in the range of a
64-bit `int`, and returns an error when it does not; the result is 0 without
error when no row qualifies. -/
theorem CalculateTotalCost_sums_qualifying_rows (db : DB) (userID : Option UUID)
    (serviceName : Option String) (startDate endDate : Time) :
    ((minInt ≤ ((db.filter (qualifies userID serviceName startDate endDate)).map
          Subscription.Price).sum
        ∧ ((db.filter (qualifies userID serviceName startDate endDate)).map
          Subscription.Price).sum ≤ maxInt) →
      subscriptionRepository.CalculateTotalCost db userID serviceName startDate endDate
        = .ok ((db.filter (qualifies userID serviceName startDate endDate)).map
            Subscription.Price).sum)
    ∧ ((((db.filter (qualifies userID serviceName startDate endDate)).map
          Subscription.Price).sum < minInt
        ∨ maxInt < ((db.filter (qualifies userID serviceName startDate endDate)).map
          Subscription.Price).sum) →
      subscriptionRepository.CalculateTotalCost db userID serviceName startDate endDate
        = .error .scanOutOfRange)
    ∧ (∀ r, qualifies userID serviceName startDate endDate r = true ↔
        (r.DeletedAt = none ∧ r.StartDate ≤ endDate
          ∧ (r.EndDate = none ∨ ∃ e, r.EndDate = some e ∧ e ≥ startDate)
          ∧ (∀ u, userID = some u → r.UserID = u)
          ∧ (∀ n, serviceName = some n → r.ServiceName = n)))
    ∧ ((∀ r ∈ db, qualifies userID serviceName startDate endDate r = false) →
        subscriptionRepository.CalculateTotalCost db userID serviceName startDate endDate
          = .ok 0) := by
  have hrepo := repository_total_eq_spec db userID serviceName startDate endDate
  unfold specTotalCost at hrepo
  refine ⟨?_, ?_, qualifies_iff userID serviceName startDate endDate, ?_⟩
  · intro h
    rw [hrepo]
    exact scanInt_of_fits ((fitsInt_iff _).mpr h)
  · intro h
    rw [hrepo]
    apply scanInt_of_not_fits
    cases hf : fitsInt ((db.filter (qualifies userID serviceName startDate endDate)).map
        Subscription.Price).sum with
    | false => rfl
    | true =>
      rw [fitsInt_iff] at hf
      omega
  · intro h
    rw [hrepo]
    have : db.filter (qualifies userID serviceName startDate endDate) = [] := by
      rw [List.filter_eq_nil_iff]
      intro r hr
      simp [h r hr]
    rw [this]
    rfl

/-- C2, behaviour of the code. For every `GET /cost` request whose `start_date`
and `end_date` are both present and not empty and of which one is not a
well-formed MM-YYYY string, the handler answers 500 with the fixed message,
whatever the table holds: the parse fails in the service before the
repository is reached. -/
theorem cost_malformed_date_answers_500 (db : DB) (q : CalculateCostQuery) (s e : String)
    (hs : q.start_date = some s) (he : q.end_date = some e) (hsne : s ≠ "") (hene : e ≠ "")
    (hbad : wellFormedMonthYear s = none ∨ wellFormedMonthYear e = none) :
    SubscriptionController.CalculateTotalCost db q
        = ⟨StatusInternalServerError, .message "Failed to calculate cost"⟩
      ∧ (∃ err, subscriptionService.CalculateTotalCost db q.user_id q.service_name s e
          = .error err) := by
  have hsvc : ∃ err, subscriptionService.CalculateTotalCost db q.user_id q.service_name s e
      = .error err := by
    unfold subscriptionService.CalculateTotalCost
    cases hp : parseMonthYear s with
    | error err => exact ⟨err, rfl⟩
    | ok a =>
      rcases hbad with hb | hb
      · obtain ⟨err, herr⟩ := parse_error_of_not_wellFormed hb
        rw [hp] at herr
        cases herr
      · obtain ⟨err, herr⟩ := parse_error_of_not_wellFormed hb
        rw [herr]
        exact ⟨err, rfl⟩
  refine ⟨?_, hsvc⟩
  obtain ⟨err, herr⟩ := hsvc
  unfold SubscriptionController.CalculateTotalCost ShouldBindQuery
  simp only [hs, he, Option.getD_some, hsne, hene, ↓reduceIte, List.append_nil, herr]

/-- C2, witness: the request with `start_date=2024-05` and `end_date=06-2024`. -/
theorem cost_malformed_date_witness :
    (wellFormedMonthYear "2024-05" = none ∨ wellFormedMonthYear "06-2024" = none)
    ∧ SubscriptionController.CalculateTotalCost sampleTable
        ⟨none, none, some "2024-05", some "06-2024"⟩
        = ⟨500, .message "Failed to calculate cost"⟩ :=
  ⟨by decide, (cost_malformed_date_answers_500 sampleTable
    ⟨none, none, some "2024-05", some "06-2024"⟩ "2024-05" "06-2024" rfl rfl (by decide)
    (by decide) (by decide)).1⟩

/-- C4, behaviour of the code. On the table that holds the Netflix
subscription at price 15, `PUT /subscriptions/:id` with a body of price -5 is
answered 200 and leaves a stored row of price -5: the update path applies no
check to the price. -/
theorem update_stores_negative_price :
    (∀ r ∈ netflixTable, 0 ≤ r.Price)
    ∧ SubscriptionController.UpdateSubscription sampleEnv netflixTable (some freshID)
        (.ok negativePriceBody)
      = (⟨200, .subscription { negativePriceBody with ID := freshID }⟩,
          [{ negativePriceBody with ID := freshID }])
    ∧ (∃ r ∈ (SubscriptionController.UpdateSubscription sampleEnv netflixTable (some freshID)
        (.ok negativePriceBody)).2, r.Price < 0) := by
  decide

/-- C5, behaviour of the code. `PUT` on the path identifier made of zeros,
which `uuid.Parse` accepts, is answered 200 with a record whose identifier is
the one newly drawn, not the one of the path: the handler sets the identifier
of the path, `Save` takes the zero key for a creation, and the hook
`BeforeCreate` replaces it. -/
theorem update_on_zero_path_id_returns_new_id :
    SubscriptionController.UpdateSubscription sampleEnv [] (some uuid.Nil) (.ok sampleUpdateBody)
      = (⟨200, .subscription { sampleUpdateBody with ID := freshID }⟩,
          [{ sampleUpdateBody with ID := freshID }])
    ∧ freshID ≠ uuid.Nil := by
  decide

/-- C6. For every table and identifier i, `Delete(i)` succeeds and afterwards:
`GetByID(i)` is the not-found error; `List()` is the former list without the
records of identifier i; every call of `CalculateTotalCost` gives what it gives
on the table without the rows of identifier i, so that whenever the totals are
returned the new total is the former total less the prices that the rows of
identifier i added to it; `GetByID(j)` is as before for every other j; and the
table differs from the former one in the column `deleted_at` alone, a live row
of identifier i staying in storage with its marker set. -/
theorem delete_hides_record_and_keeps_others (env : Env) (db : DB) (i : UUID) :
    ∃ db1, subscriptionRepository.Delete env db i = .ok db1
      ∧ subscriptionRepository.GetByID db1 i = .error .recordNotFound
      ∧ (∃ before after, subscriptionRepository.List db = .ok before
          ∧ subscriptionRepository.List db1 = .ok after
          ∧ after = before.filter (fun r => decide (r.ID ≠ i))
          ∧ ∀ r ∈ after, r.ID ≠ i)
      ∧ (∀ userID serviceName startDate endDate,
          subscriptionRepository.CalculateTotalCost db1 userID serviceName startDate endDate
            = subscriptionRepository.CalculateTotalCost (db.filter (fun r => decide (r.ID ≠ i)))
                userID serviceName startDate endDate)
      ∧ (∀ userID serviceName startDate endDate c0 c1 ci,
          subscriptionRepository.CalculateTotalCost db userID serviceName startDate endDate
            = .ok c0 →
          subscriptionRepository.CalculateTotalCost db1 userID serviceName startDate endDate
            = .ok c1 →
          subscriptionRepository.CalculateTotalCost (db.filter (fun r => decide (r.ID = i)))
            userID serviceName startDate endDate = .ok ci →
          c1 = c0 - ci)
      ∧ (∀ j, j ≠ i → subscriptionRepository.GetByID db1 j = subscriptionRepository.GetByID db j)
      ∧ db1.map (fun r => { r with DeletedAt := none })
          = db.map (fun r => { r with DeletedAt := none })
      ∧ (∀ r ∈ db, r.ID = i → r.DeletedAt = none →
          { r with DeletedAt := some env.now } ∈ db1) := by
  refine ⟨db.map (markDeleted env i), rfl, ?_, ?_, ?_, ?_, ?_, map_unmark_markDeleted env i db,
    ?_⟩
  · unfold subscriptionRepository.GetByID gorm.First
    rw [filter_id_markDeleted_self]
  · refine ⟨_, _, rfl, rfl, filter_live_markDeleted env i db, ?_⟩
    intro r hr
    rw [filter_live_markDeleted, List.mem_filter] at hr
    simpa using hr.2
  · intro userID serviceName startDate endDate
    rw [repository_total_eq_spec, repository_total_eq_spec, specTotalCost_markDeleted]
  · intro userID serviceName startDate endDate c0 c1 ci h0 h1 hi
    rw [repository_total_eq_spec] at h0 h1 hi
    obtain ⟨e0, _⟩ := scanInt_ok_inv h0
    obtain ⟨e1, _⟩ := scanInt_ok_inv h1
    obtain ⟨ei, _⟩ := scanInt_ok_inv hi
    rw [e0, e1, ei, specTotalCost_markDeleted, specTotalCost_split_id i db]
    ring
  · intro j hj
    unfold subscriptionRepository.GetByID gorm.First
    rw [filter_id_markDeleted_other env i j hj]
  · intro r hr hid hlive
    rw [List.mem_map]
    refine ⟨r, hr, ?_⟩
    unfold markDeleted
    rw [if_pos ⟨hid, hlive⟩]

/-- C7, counterexample. On a table that holds a live row of price -5, the
total filtered by user and by another service name is 0 while the total
filtered by user alone is -5: the more filtered total is the greater. And on
the table of the two subscriptions of largest price, the total filtered by
user and service name is returned while the total filtered by user alone is an
error, so that there is nothing to compare. -/
theorem cost_order_fails_with_negative_price :
    subscriptionRepository.CalculateTotalCost negativePriceTable (some userU1) (some "Spotify")
        1717200000000000 1717200000000000 = .ok 0
      ∧ subscriptionRepository.CalculateTotalCost negativePriceTable (some userU1) none
        1717200000000000 1717200000000000 = .ok (-5)
      ∧ (-5 : Int) < 0
      ∧ subscriptionRepository.CalculateTotalCost maxPriceTable (some userU1) (some "Netflix")
        1717200000000000 1717200000000000 = .ok 9223372036854775807
      ∧ subscriptionRepository.CalculateTotalCost maxPriceTable (some userU1) none
        1717200000000000 1717200000000000 = .error .scanOutOfRange := by
  decide

/-- C7, amended. On every table whose live rows all have `price >= 0`, for
every date range, user U and service name S: the totals that are returned are
ordered by filter strength, cost(U, S) <= cost(U) <= cost(); when cost() is
returned so is cost(U), and when cost(U) is returned so is cost(U, S). (A call
whose total is beyond a 64-bit `int` returns an error.) -/
theorem cost_ordered_by_filter_strength (db : DB) (U : UUID) (S : String)
    (startDate endDate : Time)
    (hprice : ∀ r ∈ db, r.DeletedAt = none → 0 ≤ r.Price) :
    (∀ cUS cU,
      subscriptionRepository.CalculateTotalCost db (some U) (some S) startDate endDate = .ok cUS →
      subscriptionRepository.CalculateTotalCost db (some U) none startDate endDate = .ok cU →
      cUS ≤ cU)
    ∧ (∀ cU call,
      subscriptionRepository.CalculateTotalCost db (some U) none startDate endDate = .ok cU →
      subscriptionRepository.CalculateTotalCost db none none startDate endDate = .ok call →
      cU ≤ call)
    ∧ (∀ call,
      subscriptionRepository.CalculateTotalCost db none none startDate endDate = .ok call →
      ∃ cU, subscriptionRepository.CalculateTotalCost db (some U) none startDate endDate
        = .ok cU)
    ∧ (∀ cU,
      subscriptionRepository.CalculateTotalCost db (some U) none startDate endDate = .ok cU →
      ∃ cUS, subscriptionRepository.CalculateTotalCost db (some U) (some S) startDate endDate
        = .ok cUS) := by
  have hpos : ∀ u n, ∀ r ∈ db, qualifies u n startDate endDate r = true → 0 ≤ r.Price := by
    intro u n r hr h
    rw [qualifies_iff] at h
    exact hprice r hr h.1
  have h1 : specTotalCost db (some U) (some S) startDate endDate
      ≤ specTotalCost db (some U) none startDate endDate := by
    apply sum_filter_mono _ _ _ _ (hpos _ _)
    intro r _ h
    rw [qualifies_iff] at h ⊢
    exact ⟨h.1, h.2.1, h.2.2.1, h.2.2.2.1, by simp⟩
  have h2 : specTotalCost db (some U) none startDate endDate
      ≤ specTotalCost db none none startDate endDate := by
    apply sum_filter_mono _ _ _ _ (hpos _ _)
    intro r _ h
    rw [qualifies_iff] at h ⊢
    exact ⟨h.1, h.2.1, h.2.2.1, by simp, by simp⟩
  have h0 : ∀ u n, 0 ≤ specTotalCost db u n startDate endDate := by
    intro u n
    have := sum_filter_mono db (fun _ => false) (qualifies u n startDate endDate)
      (by intro r _ h; cases h) (hpos u n)
    simpa [specTotalCost] using this
  refine ⟨?_, ?_, ?_, ?_⟩
  · intro cUS cU a b
    rw [repository_total_eq_spec] at a b
    rw [(scanInt_ok_inv a).1, (scanInt_ok_inv b).1]
    exact h1
  · intro cU call a b
    rw [repository_total_eq_spec] at a b
    rw [(scanInt_ok_inv a).1, (scanInt_ok_inv b).1]
    exact h2
  · intro call a
    rw [repository_total_eq_spec] at a
    have hf := (fitsInt_iff _).mp (scanInt_ok_inv a).2
    have hz := h0 (some U) none
    refine ⟨specTotalCost db (some U) none startDate endDate, ?_⟩
    rw [repository_total_eq_spec]
    apply scanInt_of_fits
    rw [fitsInt_iff]
    unfold minInt
    exact ⟨by omega, by omega⟩
  · intro cU a
    rw [repository_total_eq_spec] at a
    have hf := (fitsInt_iff _).mp (scanInt_ok_inv a).2
    have hz := h0 (some U) (some S)
    refine ⟨specTotalCost db (some U) (some S) startDate endDate, ?_⟩
    rw [repository_total_eq_spec]
    apply scanInt_of_fits
    rw [fitsInt_iff]
    unfold minInt
    exact ⟨by omega, by omega⟩

/-- C7, witness: the ordering on a table with one live row of price 15. -/
theorem cost_ordered_by_filter_strength_witness :
    (∀ r ∈ sampleTable, r.DeletedAt = none → 0 ≤ r.Price)
    ∧ subscriptionRepository.CalculateTotalCost sampleTable (some userU1) (some "Spotify")
        1717200000000000 1717200000000000 = .ok 0
    ∧ subscriptionRepository.CalculateTotalCost sampleTable (some userU1) none
        1717200000000000 1717200000000000 = .ok 15
    ∧ subscriptionRepository.CalculateTotalCost sampleTable none none
        1717200000000000 1717200000000000 = .ok 15
    ∧ (0 : Int) ≤ 15 ∧ (15 : Int) ≤ 15 :=
  ⟨by decide, by decide, by decide, by decide,
    (cost_ordered_by_filter_strength sampleTable userU1 "Spotify" 1717200000000000
      1717200000000000 (by decide)).1 0 15 (by decide) (by decide),
    (cost_ordered_by_filter_strength sampleTable userU1 "Spotify" 1717200000000000
      1717200000000000 (by decide)).2.1 15 15 (by decide) (by decide)⟩

/-- C8, counterexample. The subscription created with start 03-2024 and end
05-2024 is live and adds nothing to the service-level total for the range
(05-2024, 01-2024), although the query start equals its end: its start is
after the query end. And once the subscription of largest price is stored
beside it, the query for (05-2024, 06-2024) returns an error, not a total. -/
theorem overlap_not_counted_when_start_after_query_end :
    parseMonthYear "05-2024" = .ok (Date 2024 5 1)
    ∧ (∀ r ∈ netflixTable, r.DeletedAt = none ∧ r.EndDate = some (Date 2024 5 1) ∧ r.Price = 15)
    ∧ subscriptionService.CalculateTotalCost netflixTable none none "05-2024" "01-2024" = .ok 0
    ∧ subscriptionService.CalculateTotalCost maxPriceAndNetflixTable none none
        "05-2024" "06-2024" = .error .scanOutOfRange := by
  decide

/-- C8, amended. The overlap test is inclusive at both ends. The subscription
created with start 03-2024 and end 05-2024 adds its price to the service-level
total for the range (05-2024, 06-2024) and nothing for (06-2024, 12-2024). In
general a live subscription with end E is counted when the query start equals
E, provided its start is not after the query end, and is not counted when the
query start is later than E; one with start S is counted when the query end
equals S, provided it has no end or its end is not before the query start, and
is not counted when the query end is earlier than S. Counted means that its
price is added to the total of the other rows, the new total lying in the
range of a 64-bit `int`. -/
theorem overlap_inclusive_at_both_ends (db1 db2 : DB) (r : Subscription) (qs qe : String)
    (a b : Time) (rest : Int) (hlive : r.DeletedAt = none) (ha : parseMonthYear qs = .ok a)
    (hb : parseMonthYear qe = .ok b)
    (hrest : subscriptionService.CalculateTotalCost (db1 ++ db2) none none qs qe = .ok rest) :
    subscriptionService.CalculateTotalCost netflixTable none none "05-2024" "06-2024" = .ok 15
    ∧ subscriptionService.CalculateTotalCost netflixTable none none "06-2024" "12-2024" = .ok 0
    ∧ (∀ E, r.EndDate = some E →
        (a = E → r.StartDate ≤ b → (minInt ≤ rest + r.Price ∧ rest + r.Price ≤ maxInt) →
          subscriptionService.CalculateTotalCost (db1 ++ r :: db2) none none qs qe
            = .ok (rest + r.Price))
        ∧ (E < a →
          subscriptionService.CalculateTotalCost (db1 ++ r :: db2) none none qs qe = .ok rest))
    ∧ (b = r.StartDate → (r.EndDate = none ∨ ∃ E, r.EndDate = some E ∧ a ≤ E) →
        (minInt ≤ rest + r.Price ∧ rest + r.Price ≤ maxInt) →
        subscriptionService.CalculateTotalCost (db1 ++ r :: db2) none none qs qe
          = .ok (rest + r.Price))
    ∧ (b < r.StartDate →
        subscriptionService.CalculateTotalCost (db1 ++ r :: db2) none none qs qe = .ok rest) := by
  have hsvc := service_total_eq_spec (db1 ++ r :: db2) none none qs qe a b ha hb
  rw [service_total_eq_spec _ _ _ _ _ _ _ ha hb] at hrest
  obtain ⟨hrv, _⟩ := scanInt_ok_inv hrest
  have hin : ∀ (_ : qualifies none none a b r = true)
      (_ : minInt ≤ rest + r.Price ∧ rest + r.Price ≤ maxInt),
      subscriptionService.CalculateTotalCost (db1 ++ r :: db2) none none qs qe
        = .ok (rest + r.Price) := by
    intro hq hfit
    rw [hsvc, specTotalCost_insert, if_pos hq, ← hrv]
    exact scanInt_of_fits ((fitsInt_iff _).mpr hfit)
  have hout : ∀ (_ : ¬ qualifies none none a b r = true),
      subscriptionService.CalculateTotalCost (db1 ++ r :: db2) none none qs qe = .ok rest := by
    intro hq
    rw [hsvc, specTotalCost_insert, if_neg hq, add_zero]
    exact hrest
  refine ⟨by decide, by decide, ?_, ?_, ?_⟩
  · intro E hE
    constructor
    · intro haE hSb hfit
      apply hin _ hfit
      rw [qualifies_iff]
      exact ⟨hlive, hSb, Or.inr ⟨E, hE, by linarith⟩, by simp, by simp⟩
    · intro hlt
      apply hout
      rw [qualifies_iff]
      rintro ⟨_, _, hc, _⟩
      rcases hc with hc | ⟨e, he, hge⟩
      · rw [hE] at hc; cases hc
      · rw [hE] at he; cases he; linarith
  · intro hbS hend hfit
    apply hin _ hfit
    rw [qualifies_iff]
    refine ⟨hlive, by linarith, ?_, by simp, by simp⟩
    rcases hend with hn | ⟨E, hE, haE⟩
    · exact Or.inl hn
    · exact Or.inr ⟨E, hE, haE⟩
  · intro hlt
    apply hout
    rw [qualifies_iff]
    rintro ⟨_, hc, _⟩
    linarith

/-- C8, witness: the Netflix row queried for the range (05-2024, 06-2024). -/
theorem overlap_inclusive_witness :
    (netflixRow.DeletedAt = none ∧ parseMonthYear "05-2024" = .ok (Date 2024 5 1)
      ∧ parseMonthYear "06-2024" = .ok (Date 2024 6 1)
      ∧ subscriptionService.CalculateTotalCost ([] ++ []) none none "05-2024" "06-2024" = .ok 0)
    ∧ subscriptionService.CalculateTotalCost ([] ++ netflixRow :: []) none none
        "05-2024" "06-2024" = .ok (0 + netflixRow.Price) :=
  ⟨by decide,
    ((overlap_inclusive_at_both_ends [] [] netflixRow "05-2024" "06-2024" (Date 2024 5 1)
      (Date 2024 6 1) 0 rfl (by decide) (by decide) (by decide)).2.2.1
        (Date 2024 5 1) rfl).1 rfl (by decide) (by decide)⟩

/-- C9, counterexample. The two subscriptions of largest price are live,
open-ended and started 01-2024; the unfiltered query for a range that ends
after their start returns an error, not a total to which they add their
price. -/
theorem open_ended_total_beyond_int_is_an_error :
    (∀ r ∈ maxPriceTable, r.DeletedAt = none ∧ r.EndDate = none
      ∧ r.StartDate ≤ 1717200000000000)
    ∧ subscriptionRepository.CalculateTotalCost maxPriceTable none none 1717200000000000
        1717200000000000 = .error .scanOutOfRange := by
  decide

/-- C9, amended. A live row without `end_date` and with start S, put among
rows whose unfiltered total is returned, adds its price to that total for
every range whose end is on or after S, whatever the start of the range and
however far ahead the range lies, provided the new total lies in the range of
a 64-bit `int` (the query returns an error when it does not); it adds nothing
when the end of the range is before S. -/
theorem open_ended_counted_iff_started (db1 db2 : DB) (r : Subscription)
    (startDate endDate : Time) (rest : Int) (hlive : r.DeletedAt = none)
    (hopen : r.EndDate = none)
    (hrest : subscriptionRepository.CalculateTotalCost (db1 ++ db2) none none startDate endDate
      = .ok rest) :
    (r.StartDate ≤ endDate → (minInt ≤ rest + r.Price ∧ rest + r.Price ≤ maxInt) →
      subscriptionRepository.CalculateTotalCost (db1 ++ r :: db2) none none startDate endDate
        = .ok (rest + r.Price))
    ∧ (r.StartDate ≤ endDate → (rest + r.Price < minInt ∨ maxInt < rest + r.Price) →
      subscriptionRepository.CalculateTotalCost (db1 ++ r :: db2) none none startDate endDate
        = .error .scanOutOfRange)
    ∧ (endDate < r.StartDate →
      subscriptionRepository.CalculateTotalCost (db1 ++ r :: db2) none none startDate endDate
        = .ok rest) := by
  rw [repository_total_eq_spec] at hrest
  obtain ⟨hrv, _⟩ := scanInt_ok_inv hrest
  have hq : r.StartDate ≤ endDate → qualifies none none startDate endDate r = true := by
    intro h
    rw [qualifies_iff]
    exact ⟨hlive, h, Or.inl hopen, by simp, by simp⟩
  refine ⟨?_, ?_, ?_⟩
  · intro h hfit
    rw [repository_total_eq_spec, specTotalCost_insert, if_pos (hq h), ← hrv]
    exact scanInt_of_fits ((fitsInt_iff _).mpr hfit)
  · intro h hfit
    rw [repository_total_eq_spec, specTotalCost_insert, if_pos (hq h), ← hrv]
    apply scanInt_of_not_fits
    cases hf : fitsInt (rest + r.Price) with
    | false => rfl
    | true =>
      rw [fitsInt_iff] at hf
      omega
  · intro h
    have hn : ¬ qualifies none none startDate endDate r = true := by
      rw [qualifies_iff]
      intro hc
      exact absurd hc.2.1 (not_le.mpr h)
    rw [repository_total_eq_spec, specTotalCost_insert, if_neg hn, add_zero]
    exact hrest

/-- C9, witness: the open-ended subscription started 01-2020, queried for the
range from 01-9999 to 12-9999. -/
theorem open_ended_counted_witness :
    (openEndedRow.DeletedAt = none ∧ openEndedRow.EndDate = none
      ∧ subscriptionRepository.CalculateTotalCost ([] ++ []) none none (Date 9999 1 1)
          (Date 9999 12 1) = .ok 0
      ∧ openEndedRow.StartDate ≤ Date 9999 12 1)
    ∧ subscriptionRepository.CalculateTotalCost ([] ++ openEndedRow :: []) none none
        (Date 9999 1 1) (Date 9999 12 1) = .ok (0 + openEndedRow.Price) :=
  ⟨by decide,
    (open_ended_counted_iff_started [] [] openEndedRow (Date 9999 1 1) (Date 9999 12 1) 0
      rfl rfl (by decide)).1 (by decide) (by decide)⟩

/-- C10. `parseMonthYear`, which is also the parse that `CreateSubscription`
applies, succeeds on a string exactly when the string is two decimal digits
forming a month 01..12, a hyphen and four decimal digits, with nothing before
or after. On success it returns the start (00:00 UTC) of the first day of that
month, so that the dates returned for two accepted strings are ordered exactly
as their (year, month) pairs. The string 2024-05 is rejected. -/
theorem parseMonthYear_accepts_exactly_month_year :
    (∀ s, (∃ t, parseMonthYear s = .ok t) ↔ (∃ ym, wellFormedMonthYear s = some ym))
    ∧ (∀ s, wellFormedMonthYear s = none → ∃ e, parseMonthYear s = .error e)
    ∧ (∀ s y m, wellFormedMonthYear s = some (y, m) →
        parseMonthYear s = .ok (Date y m 1) ∧ Date y m 1 % microsPerDay = 0
          ∧ Date y m 1 = firstOfMonth y m * microsPerDay)
    ∧ (∀ s1 s2 y1 m1 y2 m2 t1 t2,
        wellFormedMonthYear s1 = some (y1, m1) → wellFormedMonthYear s2 = some (y2, m2) →
        parseMonthYear s1 = .ok t1 → parseMonthYear s2 = .ok t2 →
          (t1 < t2 ↔ (y1 < y2 ∨ (y1 = y2 ∧ m1 < m2))) ∧ (t1 = t2 ↔ (y1 = y2 ∧ m1 = m2)))
    ∧ (∃ e, parseMonthYear "2024-05" = .error e)
    ∧ (∀ s : String, Parse_01_2006 s.data = parseMonthYear s) := by
  refine ⟨?_, fun s h => parse_error_of_not_wellFormed h, ?_, ?_,
    ⟨.outOfRange "month", by decide⟩, fun _ => rfl⟩
  · intro s
    constructor
    · rintro ⟨t, ht⟩
      obtain ⟨y, m, hw, _⟩ := wellFormed_of_parse ht
      exact ⟨_, hw⟩
    · rintro ⟨⟨y, m⟩, hw⟩
      exact ⟨_, (parse_of_wellFormed hw).1⟩
  · intro s y m hw
    refine ⟨(parse_of_wellFormed hw).1, ?_, Date_first y m⟩
    rw [Date_first]
    exact Int.mul_emod_left _ _
  · intro s1 s2 y1 m1 y2 m2 t1 t2 hw1 hw2 hp1 hp2
    obtain ⟨hq1, hlo1, hhi1, _, _⟩ := parse_of_wellFormed hw1
    obtain ⟨hq2, hlo2, hhi2, _, _⟩ := parse_of_wellFormed hw2
    rw [hq1] at hp1
    rw [hq2] at hp2
    cases hp1
    cases hp2
    have hlt := Date_lt_iff y1 m1 y2 m2 ⟨hlo1, hhi1⟩ ⟨hlo2, hhi2⟩
    have hgt := Date_lt_iff y2 m2 y1 m1 ⟨hlo2, hhi2⟩ ⟨hlo1, hhi1⟩
    refine ⟨hlt, ?_⟩
    constructor
    · intro heq
      have n1 : ¬ (y1 < y2 ∨ (y1 = y2 ∧ m1 < m2)) := fun hc => by
        have := hlt.mpr hc
        rw [heq] at this
        exact lt_irrefl _ this
      have n2 : ¬ (y2 < y1 ∨ (y2 = y1 ∧ m2 < m1)) := fun hc => by
        have := hgt.mpr hc
        rw [heq] at this
        exact lt_irrefl _ this
      omega
    · rintro ⟨rfl, rfl⟩
      rfl

end Subs
